import Mathlib

/-!
# NFT collection front end: metadata responder and mint console

Shallow embedding of `my-app/pages/api/[tokenId].js` (the metadata handler) and of
`my-app/pages/index.js` (the `Home` component: wallet connection, contract polling,
mint actions and `renderBody`), followed by the properties proved about them.

Every `await` on an external promise (wallet modal, JSON-RPC provider, contract call)
is a suspension point whose outcome is supplied by an environment record: it either
resolves with a value or rejects.
-/

namespace JS

/-! ## JavaScript Number values -/

/-- Number of units of `2 ^ (-1074)` in the value one. Every finite double is a whole
number of such units. -/
def unitsPerOne : Nat := 2 ^ 1074

/-- A JavaScript Number (IEEE 754 binary64). A finite value is a sign and a magnitude
counted in units of `2 ^ (-1074)`, the smallest positive double; the magnitudes that
occur are the naturals below `2 ^ 2098` with at most 53 significant bits. -/
inductive JSNumber where
  | nan
  | infinity (negative : Bool)
  | finite (negative : Bool) (units : Nat)
deriving DecidableEq, Repr

/-- Number of binary digits of `n`, counted by halving; `fuel` bounds the number of
halvings. -/
def bitLengthAux : Nat → Nat → Nat
  | 0, _ => 0
  | fuel + 1, n => if n = 0 then 0 else bitLengthAux fuel (n / 2) + 1

/-- Number of binary digits of a natural number. -/
def bitLength (n : Nat) : Nat :=
  bitLengthAux n n

/-- Quotient `N / D` rounded to the nearest natural, ties to the even one. -/
def roundHalfEven (N D : Nat) : Nat :=
  let q := N / D
  let r := N % D
  if 2 * r < D then q
  else if D < 2 * r then q + 1
  else if q % 2 = 0 then q
  else q + 1

/-- The magnitude `N / D` (in units) rounded to 53 significant bits, nearest with ties
to even: the quantum is `2 ^ j` with `j` the number of bits by which the integer part
exceeds 53. -/
def roundUnits (N D : Nat) : Nat :=
  let j := bitLength (N / D) - 53
  roundHalfEven N (D * 2 ^ j) * 2 ^ j

/-- The double nearest to `± N / D` units; magnitudes that round to `2 ^ 1024` or more
overflow to an infinity. -/
def ofUnitsRatio (negative : Bool) (N D : Nat) : JSNumber :=
  let k := roundUnits N D
  if 2 ^ 2098 ≤ k then JSNumber.infinity negative else JSNumber.finite negative k

/-- The double nearest to `± mantissa * 10 ^ exponent`. -/
def ofDecimal (negative : Bool) (mantissa : Nat) (exponent : Int) : JSNumber :=
  if 0 ≤ exponent then
    ofUnitsRatio negative (mantissa * 10 ^ exponent.toNat * unitsPerOne) 1
  else
    ofUnitsRatio negative (mantissa * unitsPerOne) (10 ^ (-exponent).toNat)

/-- The Number value 1. -/
def JSNumber.one : JSNumber := JSNumber.finite false unitsPerOne

/-- The subtraction operator on Numbers (`Number::subtract`). -/
def JSNumber.sub (x y : JSNumber) : JSNumber :=
  match x, y with
  | .nan, _ => .nan
  | _, .nan => .nan
  | .infinity a, .infinity b => if a = b then .nan else .infinity a
  | .infinity a, .finite _ _ => .infinity a
  | .finite _ _, .infinity b => .infinity (!b)
  | .finite a k, .finite b l =>
    let d : Int := (if a then -(k : Int) else (k : Int)) - (if b then -(l : Int) else (l : Int))
    if d = 0 then JSNumber.finite (a && !b) 0
    else ofUnitsRatio (decide (d < 0)) d.natAbs 1

/-! ## Number to String (`Number::toString`, radix 10) -/

/-- The integer `n` with `10 ^ (n - 1) ≤ x < 10 ^ n` for the positive value `x` of
`k` units. -/
def decimalExponent (k : Nat) : Int :=
  if unitsPerOne ≤ k then
    ((Nat.toDigits 10 (k / unitsPerOne)).length : Int)
  else
    match (List.range 326).find? (fun z => decide (unitsPerOne ≤ k * 10 ^ z)) with
    | some z => 1 - (z : Int)
    | none => 0

/-- Largest `c` with `c * 10 ^ e ≤ x`, for `x` of `k` units. -/
def scaledFloor (k : Nat) (e : Int) : Nat :=
  if 0 ≤ e then k / (unitsPerOne * 10 ^ e.toNat)
  else k * 10 ^ (-e).toNat / unitsPerOne

/-- Whether `c * 10 ^ e` is a decimal that reads back as the double of `k` units. -/
def readsBack (k : Nat) (c : Nat) (e : Int) : Bool :=
  decide (ofDecimal false c e = JSNumber.finite false k)

/-- Whether `c * 10 ^ e` lies at least as close to `x` (of `k` units) as
`(c + 1) * 10 ^ e`, and strictly closer unless `c` is even. -/
def lowerIsCloser (k : Nat) (c : Nat) (e : Int) : Bool :=
  let x : Nat := if 0 ≤ e then k else k * 10 ^ (-e).toNat
  let step : Nat := if 0 ≤ e then 10 ^ e.toNat * unitsPerOne else unitsPerOne
  let below := x - c * step
  let above := (c + 1) * step - x
  decide (below < above) || (decide (below = above) && decide (c % 2 = 0))

/-- Search for the shortest digit string: for `p = start, start + 1, ...` digits try the
two `p`-digit decimals around `x`; stop at the first `p` where one of them reads back.
Returns the digits as a number `s` and the exponent `e` with decimal `s * 10 ^ e`. -/
def shortestFrom (k : Nat) (n : Int) : Nat → Nat → Nat × Int
  | 0, p => (scaledFloor k (n - p), n - p)
  | fuel + 1, p =>
    let e : Int := n - p
    let lo := scaledFloor k e
    let okLo := readsBack k lo e
    let okHi := readsBack k (lo + 1) e
    if okLo && okHi then
      if lowerIsCloser k lo e then (lo, e) else (lo + 1, e)
    else if okLo then (lo, e)
    else if okHi then (lo + 1, e)
    else shortestFrom k n fuel (p + 1)

/-- Drop trailing zero digits of `s`, raising the exponent. -/
def stripZeros : Nat → Nat → Int → Nat × Int
  | 0, s, e => (s, e)
  | fuel + 1, s, e =>
    if s ≠ 0 ∧ s % 10 = 0 then stripZeros fuel (s / 10) (e + 1) else (s, e)

/-- The shortest digits `s` and exponent `e` with `s * 10 ^ e` reading back as the
positive double of `k` units; seventeen digits always suffice. -/
def shortestDigits (k : Nat) : Nat × Int :=
  let found := shortestFrom k (decimalExponent k) 17 1
  stripZeros 17 found.1 found.2

/-- The text `Number::toString` lays out from the digits `s` and the exponent `e`:
plain digits, digits with a decimal point, or exponential form. -/
def layout (s : Nat) (e : Int) : String :=
  let digits := Nat.toDigits 10 s
  let kd : Int := digits.length
  let n : Int := e + kd
  if kd ≤ n ∧ n ≤ 21 then
    String.mk (digits ++ List.replicate (n - kd).toNat '0')
  else if 0 < n ∧ n ≤ 21 then
    String.mk (digits.take n.toNat ++ '.' :: digits.drop n.toNat)
  else if -6 < n ∧ n ≤ 0 then
    String.mk ('0' :: '.' :: List.replicate (-n).toNat '0' ++ digits)
  else
    let ex : Int := n - 1
    let sign : Char := if ex < 0 then '-' else '+'
    let tail := 'e' :: sign :: Nat.toDigits 10 ex.natAbs
    match digits with
    | [d] => String.mk (d :: tail)
    | d :: rest => String.mk (d :: '.' :: rest ++ tail)
    | [] => String.mk tail

/-- The decimal text of a positive finite double of `k` units. -/
def positiveToString (k : Nat) : String :=
  layout (shortestDigits k).1 (shortestDigits k).2

/-- The String of a Number (`Number::toString` with radix 10), as used by a template
literal. -/
def JSNumber.toJSString (x : JSNumber) : String :=
  match x with
  | .nan => "NaN"
  | .infinity false => "Infinity"
  | .infinity true => "-Infinity"
  | .finite neg k =>
    if k = 0 then "0"
    else if neg then "-" ++ positiveToString k
    else positiveToString k

/-! ## String to Number (`StringToNumber`) -/

/-- Code points of `StrWhiteSpaceChar`: white space (tab, vertical tab, form feed,
the byte order mark and the space separators) and line terminators. -/
def isStrWhiteSpaceChar (c : Char) : Bool :=
  decide (c.toNat ∈ [0x09, 0x0B, 0x0C, 0xFEFF, 0x20, 0xA0, 0x1680, 0x2000, 0x2001, 0x2002,
    0x2003, 0x2004, 0x2005, 0x2006, 0x2007, 0x2008, 0x2009, 0x200A, 0x202F, 0x205F, 0x3000,
    0x0A, 0x0D, 0x2028, 0x2029])

def isDecimalDigit (c : Char) : Bool :=
  decide (48 ≤ c.toNat ∧ c.toNat ≤ 57)

/-- Value of a digit in a radix up to 16, or `none` when the character is not a digit
of that radix. -/
def digitValue (radix : Nat) (c : Char) : Option Nat :=
  let n := c.toNat
  let v : Option Nat :=
    if 48 ≤ n ∧ n ≤ 57 then some (n - 48)
    else if 97 ≤ n ∧ n ≤ 102 then some (n - 87)
    else if 65 ≤ n ∧ n ≤ 70 then some (n - 55)
    else none
  v.bind fun d => if d < radix then some d else none

/-- Value of a digit string in a radix, `none` unless every character is a digit. -/
def digitsValue (radix : Nat) (cs : List Char) : Option Nat :=
  cs.foldl (fun acc c => acc.bind fun a => (digitValue radix c).map fun d => a * radix + d)
    (some 0)

/-- Value of a list of decimal digits. -/
def decimalValue (cs : List Char) : Nat :=
  cs.foldl (fun acc c => acc * 10 + (c.toNat - 48)) 0

def trimStart (cs : List Char) : List Char :=
  cs.dropWhile isStrWhiteSpaceChar

def trim (cs : List Char) : List Char :=
  (trimStart (trimStart cs).reverse).reverse

/-- A `NonDecimalIntegerLiteral`: `0x`, `0o` or `0b` (either case) and at least one
digit of that radix. -/
def nonDecimalLiteral (cs : List Char) : Option Nat :=
  match cs with
  | '0' :: x :: d :: rest =>
    if x = 'x' ∨ x = 'X' then digitsValue 16 (d :: rest)
    else if x = 'o' ∨ x = 'O' then digitsValue 8 (d :: rest)
    else if x = 'b' ∨ x = 'B' then digitsValue 2 (d :: rest)
    else none
  | _ => none

/-- An optional sign in front of digits: whether it is `-`, and the rest. -/
def splitSign (cs : List Char) : Bool × List Char :=
  match cs with
  | '+' :: r => (false, r)
  | '-' :: r => (true, r)
  | _ => (false, cs)

/-- An optional `ExponentPart` at the head of `cs`: `none` when `cs` is not empty and
is not a well formed exponent part, otherwise the exponent (0 when absent). -/
def exponentPart (cs : List Char) : Option Int :=
  match cs with
  | [] => some 0
  | c :: rest =>
    if c = 'e' ∨ c = 'E' then
      let signed := splitSign rest
      if signed.2 ≠ [] ∧ signed.2.all isDecimalDigit then
        some (if signed.1 then -(decimalValue signed.2 : Int) else (decimalValue signed.2 : Int))
      else none
    else none

/-- A `StrUnsignedDecimalLiteral` other than `Infinity`: digits, an optional point
with optional digits, an optional exponent part, with at least one digit before the
exponent. -/
def unsignedDecimal (negative : Bool) (cs : List Char) : JSNumber :=
  let intPart := cs.takeWhile isDecimalDigit
  let afterInt := cs.dropWhile isDecimalDigit
  let fracPart : List Char :=
    match afterInt with
    | '.' :: r => r.takeWhile isDecimalDigit
    | _ => []
  let afterFrac : List Char :=
    match afterInt with
    | '.' :: r => r.dropWhile isDecimalDigit
    | _ => afterInt
  if intPart = [] ∧ fracPart = [] then JSNumber.nan
  else
    match exponentPart afterFrac with
    | none => JSNumber.nan
    | some ex =>
      ofDecimal negative (decimalValue (intPart ++ fracPart)) (ex - (fracPart.length : Int))

/-- A `StrDecimalLiteral`: an optional sign, then `Infinity` or an unsigned decimal. -/
def strDecimalLiteral (cs : List Char) : JSNumber :=
  let signed := splitSign cs
  if signed.2 = "Infinity".data then JSNumber.infinity signed.1
  else unsignedDecimal signed.1 signed.2

/-- The conversion `Number(value)` applied to a String (`StringToNumber`): white space
is trimmed, the empty string is `+0`, text outside the numeric grammar is `NaN`, and a
literal denotes the double nearest to its mathematical value, ties to even (for
literals of more than 20 significant digits the language leaves a choice between two
neighbouring results; the engine rounds the exact value, which is one of them). -/
def Number (str : String) : JSNumber :=
  let cs := trim str.data
  if cs = [] then JSNumber.finite false 0
  else
    match nonDecimalLiteral cs with
    | some v => ofDecimal false v 0
    | none => strDecimalLiteral cs

/-! ## Division and `Math.floor` -/

/-- The division operator on Numbers (`Number::divide`). -/
def JSNumber.div (x y : JSNumber) : JSNumber :=
  match x, y with
  | .nan, _ => .nan
  | _, .nan => .nan
  | .infinity _, .infinity _ => .nan
  | .infinity a, .finite b _ => .infinity (a != b)
  | .finite a _, .infinity b => .finite (a != b) 0
  | .finite a k, .finite b l =>
    if l = 0 then
      if k = 0 then .nan else .infinity (a != b)
    else ofUnitsRatio (a != b) (k * unitsPerOne) l

/-- The function `Math.floor`. -/
def JSNumber.floor (x : JSNumber) : JSNumber :=
  match x with
  | .finite false k => .finite false (k / unitsPerOne * unitsPerOne)
  | .finite true k => .finite true ((k + (unitsPerOne - 1)) / unitsPerOne * unitsPerOne)
  | other => other

end JS

namespace Metadata

open JS

/-! ## The API route -/

/-- The response sent by `res.json(body)`: the status code (200 unless set) and the
members of the JSON object, in order. -/
structure Response where
  status : Nat
  body : List (String × String)
deriving DecidableEq, Repr

def imageBase : String :=
  "https://raw.githubusercontent.com/LearnWeb3DAO/NFT-Collection/main/my-app/public/cryptodevs/"

/-- Source: `handler` (`pages/api/[tokenId].js` 9-21); `tokenId` is
`req.query.tokenId`, the path parameter, a String. -/
def handler (tokenId : String) : Response :=
  let name := "Crypto dev dhruv #" ++ tokenId
  let description := "Cryptodev is NFT collection for Web3 developer by double R"
  let image := imageBase ++ ((Number tokenId).sub JSNumber.one).toJSString ++ ".svg"
  { status := 200,
    body := [("name", name), ("description", description), ("image", image)] }

end Metadata

namespace MintConsole

/-! ## UI session state (the `useState` cells of `Home`) -/

/-- The six `useState` cells of `Home`, in the order they are declared. -/
structure Session where
  walletConnected : Bool
  presaleStarted : Bool
  isOwner : Bool
  presaleEnded : Bool
  loading : Bool
  numTokenMinted : String
deriving DecidableEq, Repr

/-- Initial values passed to `useState` (note `presaleStarted` starts as `true`). -/
def initialSession : Session :=
  { walletConnected := false, presaleStarted := true, isOwner := false,
    presaleEnded := false, loading := false, numTokenMinted := "" }

/-- Values that can be thrown inside the component. -/
inductive Thrown where
  /-- A rejection coming from the wallet modal, the provider or a contract call (an
  error object or another non-nullish value, so that reading `err.message` is safe). -/
  | external
  /-- The value of `new Error("Change network to Goerli")`. -/
  | wrongNetwork
deriving DecidableEq, Repr

/-- Lines written to the diagnostic console. -/
inductive Log where
  /-- The call `console.error(err)`. -/
  | error (t : Thrown)
  /-- The call `console.error(err.message)`. -/
  | errorMessage (t : Thrown)
  /-- The call `console.log(address, "user address")`. -/
  | userAddress (address : String)
deriving DecidableEq, Repr

/-- What running an async function produced: how it settled, the session state it
left, and the `window.alert` messages and console lines it emitted, oldest first. -/
structure Result (α : Type) where
  outcome : Except Thrown α
  ui : Session
  alerts : List String
  console : List Log

/-- An async function of the component: run from a session state. -/
def Async (α : Type) : Type := Session → Result α

/-- A function that returns `a` without touching anything. -/
def Async.pure {α : Type} (a : α) : Async α :=
  fun s => { outcome := .ok a, ui := s, alerts := [], console := [] }

/-- Sequencing: a throw in the first part skips the rest; state updates persist. -/
def Async.bind {α β : Type} (m : Async α) (f : α → Async β) : Async β :=
  fun s =>
    let r := m s
    match r.outcome with
    | .error t => { outcome := .error t, ui := r.ui, alerts := r.alerts, console := r.console }
    | .ok a =>
      let r2 := f a r.ui
      { outcome := r2.outcome, ui := r2.ui,
        alerts := r.alerts ++ r2.alerts, console := r.console ++ r2.console }

instance : Monad Async where
  pure := Async.pure
  bind := Async.bind

/-- The statement `throw t`. -/
def throwJs {α : Type} (t : Thrown) : Async α :=
  fun s => { outcome := .error t, ui := s, alerts := [], console := [] }

/-- The block `try { body } catch (err) { handler err }`. -/
def tryCatch {α : Type} (body : Async α) (handler : Thrown → Async α) : Async α :=
  fun s =>
    let r := body s
    match r.outcome with
    | .ok a => { outcome := .ok a, ui := r.ui, alerts := r.alerts, console := r.console }
    | .error t =>
      let r2 := handler t r.ui
      { outcome := r2.outcome, ui := r2.ui,
        alerts := r.alerts ++ r2.alerts, console := r.console ++ r2.console }

/-- Awaiting an external promise: `some v` resolves with `v`, `none` rejects. -/
def awaitExternal {α : Type} (p : Option α) : Async α :=
  match p with
  | some v => Async.pure v
  | none => throwJs Thrown.external

/-- The call `window.alert(msg)`. -/
def windowAlert (msg : String) : Async Unit :=
  fun s => { outcome := .ok (), ui := s, alerts := [msg], console := [] }

/-- A console call. -/
def consoleWrite (l : Log) : Async Unit :=
  fun s => { outcome := .ok (), ui := s, alerts := [], console := [l] }

/-- State change helper. -/
def modifySession (f : Session → Session) : Async Unit :=
  fun s => { outcome := .ok (), ui := f s, alerts := [], console := [] }

def setWalletConnected (b : Bool) : Async Unit :=
  modifySession fun s => { s with walletConnected := b }

def setPresaleStarted (b : Bool) : Async Unit :=
  modifySession fun s => { s with presaleStarted := b }

def setIsOwner (b : Bool) : Async Unit :=
  modifySession fun s => { s with isOwner := b }

def setPresaleEnded (b : Bool) : Async Unit :=
  modifySession fun s => { s with presaleEnded := b }

def setLoading (b : Bool) : Async Unit :=
  modifySession fun s => { s with loading := b }

def setNumTokenMinted (v : String) : Async Unit :=
  modifySession fun s => { s with numTokenMinted := v }

/-! ## Environment records -/

/-- Outcome of the two wallet steps of `getProviderOrSigner`. -/
structure Wallet where
  /-- Whether `web3ModalRef.current.connect()` resolves. -/
  connect : Bool
  /-- The `chainId` of `web3Provider.getNetwork()`, or `none` when it rejects. -/
  network : Option Nat
deriving DecidableEq, Repr

/-- What `getProviderOrSigner` hands back. -/
inductive Handle where
  | signer
  | web3Provider
deriving DecidableEq, Repr

/-- Environment of a write action (`presaleMint`, `publicMint`, `startPresale`). -/
structure TxEnv where
  wallet : Wallet
  /-- Whether the contract call resolves with a transaction. -/
  submit : Bool
  /-- Whether `txn.wait()` resolves. -/
  wait : Bool
deriving DecidableEq, Repr

/-- Environment of `getOwner`. -/
structure OwnerEnv where
  wallet : Wallet
  /-- Result of `nftContract.owner()`. -/
  owner : Option String
  /-- Result of `signer.getAddress()`. -/
  address : Option String
deriving DecidableEq, Repr

/-- Environment of `getNumOfMintedToken`. -/
structure MintedEnv where
  wallet : Wallet
  /-- Result of `nftContract.tokenIds()`. -/
  tokenIds : Option Nat
deriving DecidableEq, Repr

/-- Environment of `checkIfPresaleStarted`. -/
structure StartedEnv where
  wallet : Wallet
  /-- Result of `nftContract.presaleStarted()`. -/
  presaleStarted : Option Bool
  /-- Environment of the nested `getOwner()` call. -/
  owner : OwnerEnv
deriving DecidableEq, Repr

/-- Environment of `checkIfPresaleEnded`. -/
structure EndedEnv where
  wallet : Wallet
  /-- Result of `nftContract.presaleEnded()`: a timestamp in seconds. -/
  presaleEnded : Option Nat
  /-- Value of `Date.now()`, in milliseconds. -/
  now : Int
deriving DecidableEq, Repr

/-! ## The functions of `Home` -/

def goerliAlert : String := "Change the network to Goerli"

def presaleSuccessAlert : String := "You successfully minted a Presale Cryptodev!!"

def publicSuccessAlert : String := "You successfully minted a Public Cryptodev!!"

/-- Source: `getProviderOrSigner` (index.js 195-213). -/
def getProviderOrSigner (w : Wallet) (needSigner : Bool) : Async Handle := do
  let _provider ← awaitExternal (if w.connect then some () else none)
  let chainId ← awaitExternal w.network
  if chainId ≠ 5 then
    windowAlert goerliAlert
    throwJs Thrown.wrongNetwork
  else if needSigner then
    pure Handle.signer
  else
    pure Handle.web3Provider

/-- Source: `presaleMint` (index.js 25-49). -/
def presaleMint (e : TxEnv) : Async Unit := do
  setLoading true
  tryCatch
    (do
      let _signer ← getProviderOrSigner e.wallet true
      let _txn ← awaitExternal (if e.submit then some () else none)
      awaitExternal (if e.wait then some () else none)
      windowAlert presaleSuccessAlert)
    (fun error => consoleWrite (Log.error error))
  setLoading false

/-- Source: `publicMint` (index.js 51-75). -/
def publicMint (e : TxEnv) : Async Unit := do
  setLoading true
  tryCatch
    (do
      let _signer ← getProviderOrSigner e.wallet true
      let _txn ← awaitExternal (if e.submit then some () else none)
      awaitExternal (if e.wait then some () else none)
      windowAlert publicSuccessAlert)
    (fun error => consoleWrite (Log.error error))
  setLoading false

/-- Source: `connectWallet` (index.js 78-87); `getProviderOrSigner()` is called with
its default `needSigner = false`. -/
def connectWallet (w : Wallet) : Async Unit :=
  tryCatch
    (do
      let _ ← getProviderOrSigner w false
      setWalletConnected true)
    (fun err => consoleWrite (Log.error err))

/-- The method `String.prototype.toLowerCase` on the strings it is applied to here:
account addresses, which are ASCII (`0x` and hexadecimal digits). -/
def toLowerCase (s : String) : String :=
  String.mk (s.data.map Char.toLower)

/-- Source: `getOwner` (index.js 89-107). -/
def getOwner (e : OwnerEnv) : Async Unit :=
  tryCatch
    (do
      let _signer ← getProviderOrSigner e.wallet true
      let _owner ← awaitExternal e.owner
      let address ← awaitExternal e.address
      consoleWrite (Log.userAddress address)
      if toLowerCase address = toLowerCase _owner then
        setIsOwner true)
    (fun err => consoleWrite (Log.errorMessage err))

/-- Source: `getNumOfMintedToken` (index.js 109-123); `numTokenId.toString()` is the
decimal rendering of the big number read from the contract. -/
def getNumOfMintedToken (e : MintedEnv) : Async Unit :=
  tryCatch
    (do
      let _provider ← getProviderOrSigner e.wallet false
      let numTokenId ← awaitExternal e.tokenIds
      setNumTokenMinted (toString numTokenId))
    (fun error => consoleWrite (Log.error error))

/-- Source: `startPresale` (index.js 125-145). -/
def startPresale (e : TxEnv) : Async Unit := do
  setLoading true
  tryCatch
    (do
      let _signer ← getProviderOrSigner e.wallet true
      let _tx ← awaitExternal (if e.submit then some () else none)
      setLoading true
      awaitExternal (if e.wait then some () else none)
      setLoading false
      setPresaleStarted true)
    (fun err => consoleWrite (Log.error err))
  setLoading false

/-- Source: `checkIfPresaleStarted` (index.js 147-166). -/
def checkIfPresaleStarted (e : StartedEnv) : Async Bool :=
  tryCatch
    (do
      let _provider ← getProviderOrSigner e.wallet false
      let _presaleStarted ← awaitExternal e.presaleStarted
      if !_presaleStarted then
        getOwner e.owner
      setPresaleStarted _presaleStarted
      pure _presaleStarted)
    (fun err => do
      consoleWrite (Log.error err)
      pure false)

/-- The expression `Math.floor(Date.now() / 1000)` as an integer: floor division.
The time values a `Date` can hold are at most 8.64e15 in absolute value, a range on
which the floor of the double quotient is the floor of the exact one (see
`floorSecondsDouble`). -/
def currentTimeFloor (now : Int) : Int :=
  now / 1000

/-- The expression `Math.floor(Date.now() / 1000)` in double arithmetic, for a clock
reading of `now` milliseconds since the epoch. -/
def floorSecondsDouble (now : Nat) : JS.JSNumber :=
  (JS.JSNumber.div (JS.ofDecimal false now 0) (JS.ofDecimal false 1000 0)).floor

/-- Source: `checkIfPresaleEnded` (index.js 168-193); `lt` is the strict comparison
of big numbers. -/
def checkIfPresaleEnded (e : EndedEnv) : Async Unit :=
  tryCatch
    (do
      let _provider ← getProviderOrSigner e.wallet false
      let _presaleEndedTime ← awaitExternal e.presaleEnded
      let hasPresaleEnded : Bool := decide ((_presaleEndedTime : Int) < currentTimeFloor e.now)
      setPresaleEnded hasPresaleEnded)
    (fun error => consoleWrite (Log.error error))

/-- Body of the second `setInterval` callback of `onPageLoad` (index.js 231-237). -/
def presaleTick (es : StartedEnv) (ee : EndedEnv) : Async Unit := do
  let presaleStarted ← checkIfPresaleStarted es
  if presaleStarted then
    checkIfPresaleEnded ee

/-- Body of the first `setInterval` callback of `onPageLoad` (index.js 226-228). -/
def mintedTick (e : MintedEnv) : Async Unit :=
  getNumOfMintedToken e

/-- Environment of the initial pass of `onPageLoad`. -/
structure LoadEnv where
  connect : Wallet
  owner : OwnerEnv
  started : StartedEnv
  ended : EndedEnv
  minted : MintedEnv

/-- Source: `onPageLoad` (index.js 215-238), up to the installation of the timers. -/
def onPageLoad (e : LoadEnv) : Async Unit := do
  connectWallet e.connect
  getOwner e.owner
  let presaleStarted ← checkIfPresaleStarted e.started
  if presaleStarted then
    checkIfPresaleEnded e.ended
  getNumOfMintedToken e.minted

/-! ## Rendering -/

/-- The six elements `renderBody` can return. -/
inductive Element where
  /-- The button "Connect your Wallet" (`onClick={connectWallet}`). -/
  | connectButton
  /-- The button "Loading...". -/
  | loadingButton
  /-- The button "Start PreSale" (`onClick={startPresale}`). -/
  | startPresaleButton
  /-- The text "Presale has not started yet. Come back later !". -/
  | notStartedMessage
  /-- The presale text with the button "Presale Mint" (`onClick={presaleMint}`). -/
  | presaleMintControl
  /-- The public sale text with the button "Public Mint" (`onClick={publicMint}`). -/
  | publicMintControl
deriving DecidableEq, Repr

/-- Source: `renderBody` (index.js 253-318). `none` is the `undefined` a JavaScript
function returns when control reaches its end. -/
def renderBody (s : Session) : Option Element :=
  if !s.walletConnected then
    some Element.connectButton
  else if s.loading then
    some Element.loadingButton
  else if s.isOwner && !s.presaleStarted then
    some Element.startPresaleButton
  else if !s.presaleStarted then
    some Element.notStartedMessage
  else if s.presaleStarted && !s.presaleEnded then
    some Element.presaleMintControl
  else if s.presaleEnded then
    some Element.publicMintControl
  else
    none

/-! ## Derived notions used by the statements -/

/-- The sale phases of the data model. -/
inductive Phase where
  | NotStarted
  | Presale
  | PublicSale
deriving DecidableEq, Repr

/-- The sale phase a session state stands for, read off the three phase branches of
`renderBody`: not started when `presaleStarted` is false, presale while
`presaleEnded` is false, public sale otherwise. -/
def phase (s : Session) : Phase :=
  if !s.presaleStarted then Phase.NotStarted
  else if !s.presaleEnded then Phase.Presale
  else Phase.PublicSale

/-- A wallet on which both steps succeed and the chain id is the required one. -/
def goerliWallet : Wallet := { connect := true, network := some 5 }

/-- Every external step of a write action succeeds: the wallet connects, reports
chain id 5, the transaction is submitted and its confirmation arrives. -/
def TxEnv.allStepsSucceed (e : TxEnv) : Bool :=
  e.wallet.connect && decide (e.wallet.network = some 5) && e.submit && e.wait

/-- The reads of `getOwner` all succeed and the signer address equals the contract
owner up to letter case. -/
def OwnerEnv.ownerMatches (e : OwnerEnv) : Bool :=
  e.wallet.connect && decide (e.wallet.network = some 5) &&
    match e.owner, e.address with
    | some o, some a => decide (toLowerCase a = toLowerCase o)
    | _, _ => false

/-- The priority list of the rendering rule, as the specification words it: each
entry is a condition on the session state and the element shown when it is the
first one to hold. -/
def renderPriority : List ((Session → Bool) × Element) :=
  [ (fun s => !s.walletConnected, Element.connectButton),
    (fun s => s.loading, Element.loadingButton),
    (fun s => s.isOwner && !s.presaleStarted, Element.startPresaleButton),
    (fun s => !s.presaleStarted, Element.notStartedMessage),
    (fun s => s.presaleStarted && !s.presaleEnded, Element.presaleMintControl),
    (fun s => s.presaleEnded, Element.publicMintControl) ]

/-- First entry of the priority list whose condition holds. -/
def firstByPriority (s : Session) : Option Element :=
  (renderPriority.find? fun b => b.1 s).map fun b => b.2

/-- The operations of the mint console, each with the environment it runs in. -/
inductive Operation where
  | connectWallet (w : Wallet)
  | getOwner (e : OwnerEnv)
  | checkIfPresaleStarted (e : StartedEnv)
  | checkIfPresaleEnded (e : EndedEnv)
  | getNumOfMintedToken (e : MintedEnv)
  | startPresale (e : TxEnv)
  | presaleMint (e : TxEnv)
  | publicMint (e : TxEnv)
  | mintedTick (e : MintedEnv)
  | presaleTick (es : StartedEnv) (ee : EndedEnv)
  | onPageLoad (e : LoadEnv)

/-- Session state left by one operation. -/
def Operation.run (op : Operation) (s : Session) : Session :=
  match op with
  | .connectWallet w => (MintConsole.connectWallet w s).ui
  | .getOwner e => (MintConsole.getOwner e s).ui
  | .checkIfPresaleStarted e => (MintConsole.checkIfPresaleStarted e s).ui
  | .checkIfPresaleEnded e => (MintConsole.checkIfPresaleEnded e s).ui
  | .getNumOfMintedToken e => (MintConsole.getNumOfMintedToken e s).ui
  | .startPresale e => (MintConsole.startPresale e s).ui
  | .presaleMint e => (MintConsole.presaleMint e s).ui
  | .publicMint e => (MintConsole.publicMint e s).ui
  | .mintedTick e => (MintConsole.mintedTick e s).ui
  | .presaleTick es ee => (MintConsole.presaleTick es ee s).ui
  | .onPageLoad e => (MintConsole.onPageLoad e s).ui

/-- Session state left by a sequence of operations, run one after the other. -/
def runAll (ops : List Operation) (s : Session) : Session :=
  ops.foldl (fun acc op => op.run acc) s

/-- An async function keeps a property of the session state. -/
def Keeps {α : Type} (P : Session → Prop) (m : Async α) : Prop :=
  ∀ s, P s → P (m s).ui

end MintConsole

/-! # Properties -/

namespace JS

/-! ## Powers of two -/

theorem unitsPerOne_eq : unitsPerOne = 2 ^ 1074 := rfl

theorem two_pow_lt {a b : Nat} (h : a < b) : 2 ^ a < 2 ^ b :=
  Nat.pow_lt_pow_right (by decide) h

theorem two_pow_le {a b : Nat} (h : a ≤ b) : 2 ^ a ≤ 2 ^ b :=
  Nat.pow_le_pow_right (by decide) h

theorem two_pow_pos (a : Nat) : 0 < 2 ^ a := Nat.two_pow_pos a

theorem ten_pow_pos (a : Nat) : 0 < 10 ^ a := Nat.pos_pow_of_pos a (by decide)

theorem unitsPerOne_pos : 0 < unitsPerOne := two_pow_pos _

theorem mul_two_pow_lt {v k e U : Nat} (hU : U = 2 ^ e) (h : v < 2 ^ k) :
    v * U < 2 ^ (k + e) := by
  subst hU
  rw [Nat.pow_add]
  exact Nat.mul_lt_mul_of_lt_of_le h (Nat.le_refl _) (two_pow_pos e)

theorem mul_two_pow_le {v k e U : Nat} (hU : U = 2 ^ e) (h : v ≤ 2 ^ k) :
    v * U ≤ 2 ^ (k + e) := by
  subst hU
  rw [Nat.pow_add]
  exact Nat.mul_le_mul h (Nat.le_refl _)

theorem le_mul_two_pow {w k e U : Nat} (hU : U = 2 ^ e) (h : 2 ^ k ≤ w) :
    2 ^ (k + e) ≤ w * U := by
  subst hU
  rw [Nat.pow_add]
  exact Nat.mul_le_mul h (Nat.le_refl _)

theorem dvd_mul_two_pow {j e U : Nat} (hU : U = 2 ^ e) (hj : j ≤ e) (v : Nat) :
    2 ^ j ∣ v * U := by
  subst hU
  exact Dvd.dvd.mul_left (Nat.pow_dvd_pow 2 hj) v

theorem two_pow_dvd_of_eq {j e N : Nat} (hN : N = 2 ^ e) (hj : j ≤ e) : 2 ^ j ∣ N := by
  subst hN
  exact Nat.pow_dvd_pow 2 hj

theorem not_overflow {v : Nat} (hv : v ≤ 2 ^ 53) : ¬ (2 ^ 2098 ≤ v * unitsPerOne) := by
  have h1 := mul_two_pow_le unitsPerOne_eq hv
  have h2 : 2 ^ (53 + 1074) < 2 ^ 2098 := two_pow_lt (by decide)
  omega

/-! ## Rounding is exact on small integers -/

theorem bitLengthAux_spec (fuel : Nat) : ∀ n, n ≤ fuel → n ≠ 0 →
    2 ^ (bitLengthAux fuel n - 1) ≤ n ∧ n < 2 ^ bitLengthAux fuel n := by
  induction fuel with
  | zero => intro n h hn; omega
  | succ f ih =>
    intro n h hn
    simp only [bitLengthAux, if_neg hn]
    by_cases h2 : n / 2 = 0
    · have h1 : n = 1 := by omega
      subst h1
      cases f <;> simp [bitLengthAux]
    · obtain ⟨ha, hb⟩ := ih (n / 2) (by omega) h2
      have hpos : 0 < bitLengthAux f (n / 2) := by
        rcases Nat.eq_zero_or_pos (bitLengthAux f (n / 2)) with h0 | h0
        · rw [h0] at hb; simp at hb; omega
        · exact h0
      constructor
      · have : bitLengthAux f (n / 2) + 1 - 1 = (bitLengthAux f (n / 2) - 1) + 1 := by omega
        rw [this, Nat.pow_succ]
        omega
      · rw [Nat.pow_succ]
        omega

theorem bitLength_spec {n : Nat} (hn : n ≠ 0) :
    2 ^ (bitLength n - 1) ≤ n ∧ n < 2 ^ bitLength n :=
  bitLengthAux_spec n n (Nat.le_refl n) hn

theorem bitLength_le {n k : Nat} (h : n < 2 ^ k) : bitLength n ≤ k := by
  by_cases hn : n = 0
  · subst hn
    simp [bitLength, bitLengthAux]
  · obtain ⟨ha, _⟩ := bitLength_spec hn
    by_contra hc
    have hk : k ≤ bitLength n - 1 := by omega
    have := two_pow_le hk
    omega

theorem lt_bitLength {n k : Nat} (h : 2 ^ k ≤ n) : k < bitLength n := by
  have hn : n ≠ 0 := by
    have := two_pow_pos k
    omega
  obtain ⟨_, hb⟩ := bitLength_spec hn
  by_contra hc
  have hk : bitLength n ≤ k := by omega
  have := two_pow_le hk
  omega

theorem roundHalfEven_of_dvd {N D : Nat} (hD : 0 < D) (h : D ∣ N) :
    roundHalfEven N D = N / D := by
  have hr : N % D = 0 := Nat.mod_eq_zero_of_dvd h
  simp [roundHalfEven, hr, hD]

theorem le_roundHalfEven (N D : Nat) : N / D ≤ roundHalfEven N D := by
  unfold roundHalfEven
  simp only
  split_ifs <;> omega

/-- Integers up to `2 ^ 53` are doubles: rounding leaves them alone. -/
theorem roundUnits_exact {v : Nat} (hv : v ≤ 2 ^ 53) :
    roundUnits (v * unitsPerOne) 1 = v * unitsPerOne := by
  unfold roundUnits
  simp only [Nat.div_one, Nat.one_mul]
  have hdvd : 2 ^ (bitLength (v * unitsPerOne) - 53) ∣ v * unitsPerOne := by
    rcases Nat.lt_or_ge v (2 ^ 53) with hlt | hge
    · have hb : bitLength (v * unitsPerOne) ≤ 53 + 1074 :=
        bitLength_le (mul_two_pow_lt unitsPerOne_eq hlt)
      exact dvd_mul_two_pow unitsPerOne_eq (by omega) v
    · have hv2 : v = 2 ^ 53 := le_antisymm hv hge
      have hlt : v < 2 ^ 54 := by rw [hv2]; exact two_pow_lt (by decide)
      have hb : bitLength (v * unitsPerOne) ≤ 54 + 1074 :=
        bitLength_le (mul_two_pow_lt unitsPerOne_eq hlt)
      have hj : bitLength (v * unitsPerOne) - 53 ≤ 53 + 1074 := by omega
      have hval : v * unitsPerOne = 2 ^ (53 + 1074) := by
        rw [hv2, unitsPerOne_eq, Nat.pow_add]
      exact two_pow_dvd_of_eq hval hj
  rw [roundHalfEven_of_dvd (two_pow_pos _) hdvd]
  exact Nat.div_mul_cancel hdvd

/-- Rounding an integer of at least `2 ^ 53` never goes below `2 ^ 53`. -/
theorem le_roundUnits {w : Nat} (hw : 2 ^ 53 ≤ w) :
    2 ^ (53 + 1074) ≤ roundUnits (w * unitsPerOne) 1 := by
  unfold roundUnits
  simp only [Nat.div_one, Nat.one_mul]
  generalize hN : w * unitsPerOne = N
  have hNge : 2 ^ (53 + 1074) ≤ N := by
    rw [← hN]
    exact le_mul_two_pow unitsPerOne_eq hw
  have hb : 53 + 1074 < bitLength N := lt_bitLength hNge
  have hne : N ≠ 0 := by
    have := two_pow_pos (53 + 1074)
    omega
  obtain ⟨hlow, _⟩ := bitLength_spec hne
  generalize hj : bitLength N - 53 = j
  have hsplit : bitLength N - 1 = 52 + j := by omega
  have hq : 2 ^ 52 ≤ N / 2 ^ j := by
    rw [Nat.le_div_iff_mul_le (two_pow_pos j), ← Nat.pow_add, ← hsplit]
    exact hlow
  have h1 : N / 2 ^ j ≤ roundHalfEven N (2 ^ j) := le_roundHalfEven N (2 ^ j)
  have h2 : 2 ^ 52 * 2 ^ j ≤ roundHalfEven N (2 ^ j) * 2 ^ j :=
    Nat.mul_le_mul (le_trans hq h1) (Nat.le_refl _)
  have h3 : 2 ^ (53 + 1074) ≤ 2 ^ (52 + j) := two_pow_le (by omega)
  rw [Nat.pow_add 2 52 j] at h3
  exact le_trans h3 h2

theorem ofDecimal_exact {v : Nat} (hv : v ≤ 2 ^ 53) :
    ofDecimal false v 0 = JSNumber.finite false (v * unitsPerOne) := by
  unfold ofDecimal ofUnitsRatio
  rw [if_pos (le_refl (0 : Int))]
  simp only [Int.toNat_zero, Nat.pow_zero, Nat.mul_one, roundUnits_exact hv,
    if_neg (not_overflow hv)]

theorem sub_one_exact {n : Nat} (h1 : 1 ≤ n) (hn : n ≤ 2 ^ 53) :
    (JSNumber.finite false (n * unitsPerOne)).sub JSNumber.one
      = JSNumber.finite false ((n - 1) * unitsPerOne) := by
  have hU := unitsPerOne_pos
  have hd : ((n * unitsPerOne : Nat) : Int) - (unitsPerOne : Int)
      = (((n - 1) * unitsPerOne : Nat) : Int) := by
    have : n * unitsPerOne = (n - 1) * unitsPerOne + unitsPerOne := by
      rw [Nat.sub_mul, Nat.one_mul]
      have : unitsPerOne ≤ n * unitsPerOne := Nat.le_mul_of_pos_left _ h1
      omega
    omega
  have hv : n - 1 ≤ 2 ^ 53 := by omega
  have hlt := not_overflow hv
  have hr := roundUnits_exact hv
  unfold JSNumber.sub JSNumber.one
  simp only [Bool.false_eq_true, if_false, hd]
  generalize (n - 1) * unitsPerOne = L at hlt hr
  by_cases h0 : L = 0
  · subst h0
    simp
  · have h0i : ¬ ((L : Int) = 0) := by omega
    have hneg : ¬ ((L : Int) < 0) := by omega
    simp only [if_neg h0i, ofUnitsRatio, Int.natAbs_ofNat, hr, if_neg hlt, hneg, decide_False]

/-! ## Reading back the decimal rendering of a natural number -/

theorem digitChar_toNat {d : Nat} (h : d < 10) : (Nat.digitChar d).toNat = 48 + d := by
  interval_cases d <;> rfl

theorem toDigitsCore_isDigit (fuel : Nat) : ∀ (n : Nat) (ds : List Char),
    (∀ c ∈ ds, isDecimalDigit c = true) →
    ∀ c ∈ Nat.toDigitsCore 10 fuel n ds, isDecimalDigit c = true := by
  induction fuel with
  | zero => intro n ds h; simpa [Nat.toDigitsCore] using h
  | succ f ih =>
    intro n ds h
    have hd : isDecimalDigit (Nat.digitChar (n % 10)) = true := by
      have := digitChar_toNat (Nat.mod_lt n (by decide : 0 < 10))
      simp [isDecimalDigit, this]
      omega
    have hcons : ∀ c ∈ Nat.digitChar (n % 10) :: ds, isDecimalDigit c = true := by
      intro c hc
      rcases List.mem_cons.mp hc with rfl | hc
      · exact hd
      · exact h c hc
    simp only [Nat.toDigitsCore]
    split_ifs
    · exact hcons
    · exact ih _ _ hcons

theorem toDigits_isDigit (n : Nat) : ∀ c ∈ Nat.toDigits 10 n, isDecimalDigit c = true :=
  toDigitsCore_isDigit _ _ _ (by simp)

theorem decimalValue_foldl (ds : List Char) (a : Nat) :
    ds.foldl (fun acc c => acc * 10 + (c.toNat - 48)) a
      = a * 10 ^ ds.length + decimalValue ds := by
  induction ds generalizing a with
  | nil => simp [decimalValue]
  | cons c cs ih =>
    simp only [List.foldl_cons, List.length_cons, decimalValue]
    rw [ih, ih (0 * 10 + (c.toNat - 48))]
    ring

theorem toDigitsCore_value (fuel : Nat) : ∀ (n : Nat) (ds : List Char), n < fuel →
    decimalValue (Nat.toDigitsCore 10 fuel n ds) = n * 10 ^ ds.length + decimalValue ds := by
  induction fuel with
  | zero => intro n ds h; omega
  | succ f ih =>
    intro n ds h
    have hd := digitChar_toNat (Nat.mod_lt n (by decide : 0 < 10))
    have hcons : decimalValue (Nat.digitChar (n % 10) :: ds)
        = (n % 10) * 10 ^ ds.length + decimalValue ds := by
      unfold decimalValue
      rw [List.foldl_cons, decimalValue_foldl]
      simp [hd, decimalValue]
    simp only [Nat.toDigitsCore]
    split_ifs with h0
    · rw [hcons]
      have : n % 10 = n := by omega
      rw [this]
    · rw [ih _ _ (by omega), hcons, List.length_cons, Nat.pow_succ]
      have : n = n / 10 * 10 + n % 10 := by omega
      nth_rewrite 3 [this]
      ring

theorem toDigits_value (n : Nat) : decimalValue (Nat.toDigits 10 n) = n := by
  unfold Nat.toDigits
  rw [toDigitsCore_value _ _ _ (Nat.lt_succ_self n)]
  simp [decimalValue]

theorem toDigitsCore_ne_nil (fuel n : Nat) (ds : List Char) (h : n < fuel) :
    Nat.toDigitsCore 10 fuel n ds ≠ [] := by
  induction fuel generalizing n ds with
  | zero => omega
  | succ f ih =>
    simp only [Nat.toDigitsCore]
    split_ifs with h0
    · simp
    · exact ih _ _ (by omega)

theorem toDigits_ne_nil (n : Nat) : Nat.toDigits 10 n ≠ [] :=
  toDigitsCore_ne_nil _ _ _ (Nat.lt_succ_self n)

theorem not_whiteSpace_of_digit {c : Char} (h : isDecimalDigit c = true) :
    isStrWhiteSpaceChar c = false := by
  simp only [isDecimalDigit, decide_eq_true_eq] at h
  simp only [isStrWhiteSpaceChar, decide_eq_false_iff_not, List.mem_cons, List.mem_singleton,
    List.not_mem_nil, or_false]
  omega

theorem trimStart_digits {cs : List Char} (h : ∀ c ∈ cs, isDecimalDigit c = true) :
    trimStart cs = cs := by
  cases cs with
  | nil => rfl
  | cons c rest =>
    have := not_whiteSpace_of_digit (h c (List.mem_cons_self _ _))
    simp [trimStart, List.dropWhile, this]

theorem trim_digits {cs : List Char} (h : ∀ c ∈ cs, isDecimalDigit c = true) :
    trim cs = cs := by
  unfold trim
  rw [trimStart_digits h, trimStart_digits (fun c hc => h c (List.mem_reverse.mp hc)),
    List.reverse_reverse]

theorem nonDecimalLiteral_digits {cs : List Char} (h : ∀ c ∈ cs, isDecimalDigit c = true) :
    nonDecimalLiteral cs = none := by
  unfold nonDecimalLiteral
  split
  · rename_i x d rest
    have hx : isDecimalDigit x = true := h x (by simp)
    simp only [isDecimalDigit, decide_eq_true_eq] at hx
    have h1 : ¬ (x = 'x' ∨ x = 'X') := by
      rintro (rfl | rfl) <;> revert hx <;> decide
    have h2 : ¬ (x = 'o' ∨ x = 'O') := by
      rintro (rfl | rfl) <;> revert hx <;> decide
    have h3 : ¬ (x = 'b' ∨ x = 'B') := by
      rintro (rfl | rfl) <;> revert hx <;> decide
    simp [h1, h2, h3]
  · rfl

theorem takeWhile_digits {cs : List Char} (h : ∀ c ∈ cs, isDecimalDigit c = true) :
    cs.takeWhile isDecimalDigit = cs := by
  rw [List.takeWhile_eq_self_iff]
  exact h

theorem dropWhile_digits {cs : List Char} (h : ∀ c ∈ cs, isDecimalDigit c = true) :
    cs.dropWhile isDecimalDigit = [] := by
  rw [List.dropWhile_eq_nil_iff]
  exact h

theorem unsignedDecimal_digits {cs : List Char} (h : ∀ c ∈ cs, isDecimalDigit c = true)
    (hne : cs ≠ []) (negative : Bool) :
    unsignedDecimal negative cs = ofDecimal negative (decimalValue cs) 0 := by
  unfold unsignedDecimal
  simp [takeWhile_digits h, dropWhile_digits h, hne, exponentPart]

theorem strDecimalLiteral_digits {cs : List Char} (h : ∀ c ∈ cs, isDecimalDigit c = true)
    (hne : cs ≠ []) :
    strDecimalLiteral cs = ofDecimal false (decimalValue cs) 0 := by
  cases cs with
  | nil => exact absurd rfl hne
  | cons c rest =>
    have hc : isDecimalDigit c = true := h c (List.mem_cons_self _ _)
    simp only [isDecimalDigit, decide_eq_true_eq] at hc
    have hplus : c ≠ '+' := by rintro rfl; revert hc; decide
    have hminus : c ≠ '-' := by rintro rfl; revert hc; decide
    have hI : c ≠ 'I' := by rintro rfl; revert hc; decide
    have hinf : c :: rest ≠ "Infinity".data := by
      intro heq
      have : c = 'I' := by
        have := congrArg List.head? heq
        simpa using this
      exact hI this
    have hs : splitSign (c :: rest) = (false, c :: rest) := by
      unfold splitSign
      split
      · rename_i r heq; exact absurd (List.cons.inj heq).1 hplus
      · rename_i r heq; exact absurd (List.cons.inj heq).1 hminus
      · rfl
    unfold strDecimalLiteral
    simp only [hs, hinf, if_false]
    exact unsignedDecimal_digits h hne false

/-- Reading the decimal rendering of `n` gives the double nearest to `n`. -/
theorem Number_toString (n : Nat) : Number (toString n) = ofDecimal false n 0 := by
  have hdata : (toString n).data = Nat.toDigits 10 n := rfl
  have hd := toDigits_isDigit n
  unfold Number
  simp only [hdata, trim_digits hd, toDigits_ne_nil n, if_false, nonDecimalLiteral_digits hd,
    strDecimalLiteral_digits hd (toDigits_ne_nil n), toDigits_value]

/-! ## Printing small integers -/

theorem toDigitsCore_append (fuel : Nat) : ∀ (n : Nat) (ds : List Char),
    Nat.toDigitsCore 10 fuel n ds = Nat.toDigitsCore 10 fuel n [] ++ ds := by
  induction fuel with
  | zero => intro n ds; simp [Nat.toDigitsCore]
  | succ f ih =>
    intro n ds
    simp only [Nat.toDigitsCore]
    split_ifs
    · simp
    · rw [ih _ (_ :: ds), ih _ [_]]
      simp

theorem toDigitsCore_fuel (f1 : Nat) : ∀ (f2 n : Nat) (ds : List Char), n < f1 → n < f2 →
    Nat.toDigitsCore 10 f1 n ds = Nat.toDigitsCore 10 f2 n ds := by
  induction f1 with
  | zero => intro f2 n ds h; omega
  | succ f ih =>
    intro f2 n ds h1 h2
    cases f2 with
    | zero => omega
    | succ g =>
      simp only [Nat.toDigitsCore]
      split_ifs with h0
      · rfl
      · exact ih g _ _ (by omega) (by omega)

theorem toDigitsCore_succ (f n : Nat) (ds : List Char) :
    Nat.toDigitsCore 10 (f + 1) n ds =
      if n / 10 = 0 then Nat.digitChar (n % 10) :: ds
      else Nat.toDigitsCore 10 f (n / 10) (Nat.digitChar (n % 10) :: ds) := rfl

theorem toDigits_mul_ten {m : Nat} (hm : 1 ≤ m) :
    Nat.toDigits 10 (m * 10) = Nat.toDigits 10 m ++ ['0'] := by
  unfold Nat.toDigits
  have h0 : ¬ (m * 10 / 10 = 0) := by omega
  have hmod : m * 10 % 10 = 0 := by omega
  have hdiv : m * 10 / 10 = m := by omega
  rw [toDigitsCore_succ, if_neg h0, hmod, hdiv, toDigitsCore_append,
    toDigitsCore_fuel (m * 10) (m + 1) m [] (by omega) (by omega)]
  rfl

theorem toDigits_mul_pow {s : Nat} (hs : 1 ≤ s) (z : Nat) :
    Nat.toDigits 10 (s * 10 ^ z) = Nat.toDigits 10 s ++ List.replicate z '0' := by
  induction z with
  | zero => simp
  | succ z ih =>
    have hpos : 1 ≤ s * 10 ^ z := Nat.mul_pos hs (ten_pow_pos z)
    rw [Nat.pow_succ, ← Nat.mul_assoc, toDigits_mul_ten hpos, ih, List.append_assoc,
      List.replicate_succ']

theorem toDigits_length_le {v : Nat} (hv : v < 2 ^ 53) : (Nat.toDigits 10 v).length ≤ 16 := by
  have h := Nat.repr_length v 16 (by decide) (lt_trans hv (by norm_num))
  exact h

theorem decimalExponent_exact {v : Nat} (hv : 1 ≤ v) :
    decimalExponent (v * unitsPerOne) = ((Nat.toDigits 10 v).length : Int) := by
  have h : unitsPerOne ≤ v * unitsPerOne := Nat.le_mul_of_pos_left _ hv
  unfold decimalExponent
  rw [if_pos h, Nat.mul_div_cancel _ unitsPerOne_pos]

theorem scaledFloor_exact (v z : Nat) :
    scaledFloor (v * unitsPerOne) (z : Int) = v / 10 ^ z := by
  unfold scaledFloor
  rw [if_pos (Int.ofNat_nonneg z), Int.toNat_ofNat, Nat.mul_comm v,
    Nat.mul_div_mul_left _ _ unitsPerOne_pos]

/-- A decimal `c * 10 ^ z` reads back as the integer `v < 2 ^ 53` only if it is `v`. -/
theorem readsBack_iff {v : Nat} (hv : v < 2 ^ 53) (c z : Nat) :
    readsBack (v * unitsPerOne) c (z : Int) = true ↔ c * 10 ^ z = v := by
  unfold readsBack ofDecimal
  rw [if_pos (Int.ofNat_nonneg z), Int.toNat_ofNat, decide_eq_true_eq]
  rcases Nat.lt_or_ge (c * 10 ^ z) (2 ^ 53) with hw | hw
  · have hex := roundUnits_exact (le_of_lt hw)
    have hlt := not_overflow (le_of_lt hw)
    unfold ofUnitsRatio
    simp only [hex, if_neg hlt, JSNumber.finite.injEq, true_and]
    exact ⟨fun h => Nat.eq_of_mul_eq_mul_right unitsPerOne_pos h, fun h => by rw [h]⟩
  · have hle := le_roundUnits hw
    have hvU := mul_two_pow_lt unitsPerOne_eq hv
    constructor
    · intro h
      simp only [ofUnitsRatio] at h
      split_ifs at h
      simp only [JSNumber.finite.injEq, true_and] at h
      omega
    · intro h
      omega

theorem shortestFrom_exact {v : Nat} (hv : v < 2 ^ 53) (dlen : Nat) :
    ∀ (fuel p : Nat), p ≤ dlen → dlen < p + fuel →
      ∃ z : Nat, (shortestFrom (v * unitsPerOne) (dlen : Int) fuel p).2 = (z : Int) ∧
        (shortestFrom (v * unitsPerOne) (dlen : Int) fuel p).1 * 10 ^ z = v := by
  intro fuel
  induction fuel with
  | zero => intro p h1 h2; omega
  | succ f ih =>
    intro p h1 h2
    have he : ((dlen : Int) - (p : Int)) = ((dlen - p : Nat) : Int) := by omega
    have hHi : readsBack (v * unitsPerOne) (v / 10 ^ (dlen - p) + 1) ((dlen - p : Nat) : Int)
        = false := by
      rw [Bool.eq_false_iff]
      intro h
      rw [readsBack_iff hv] at h
      have := Nat.lt_succ_iff.mpr (le_refl (v / 10 ^ (dlen - p)))
      have hlt : v < (v / 10 ^ (dlen - p) + 1) * 10 ^ (dlen - p) := by
        have hp : 0 < 10 ^ (dlen - p) := ten_pow_pos _
        exact (Nat.div_lt_iff_lt_mul hp).mp (Nat.lt_succ_self _)
      omega
    simp only [shortestFrom, he, scaledFloor_exact, hHi, Bool.and_false, Bool.false_eq_true,
      if_false]
    by_cases hLo : readsBack (v * unitsPerOne) (v / 10 ^ (dlen - p)) ((dlen - p : Nat) : Int)
        = true
    · rw [if_pos hLo]
      exact ⟨dlen - p, rfl, (readsBack_iff hv _ _).mp hLo⟩
    · rw [if_neg hLo]
      have hp : p < dlen := by
        by_contra hc
        have hz : dlen - p = 0 := by omega
        apply hLo
        rw [readsBack_iff hv, hz]
        simp
      have := ih (p + 1) hp (by omega)
      simpa using this

theorem stripZeros_exact (fuel : Nat) : ∀ (s z : Nat), s ≠ 0 →
    ∃ z2 : Nat, (stripZeros fuel s (z : Int)).2 = (z2 : Int) ∧
      (stripZeros fuel s (z : Int)).1 * 10 ^ z2 = s * 10 ^ z ∧
      (stripZeros fuel s (z : Int)).1 ≠ 0 := by
  induction fuel with
  | zero => intro s z hs; exact ⟨z, rfl, rfl, hs⟩
  | succ f ih =>
    intro s z hs
    simp only [stripZeros]
    by_cases h : s ≠ 0 ∧ s % 10 = 0
    · rw [if_pos h]
      have hs2 : s / 10 ≠ 0 := by omega
      obtain ⟨z2, h1, h2, h3⟩ := ih (s / 10) (z + 1) hs2
      have hz : ((z : Int) + 1) = ((z + 1 : Nat) : Int) := by omega
      rw [hz]
      refine ⟨z2, h1, ?_, h3⟩
      rw [h2, Nat.pow_succ]
      have : s = s / 10 * 10 := by omega
      nth_rewrite 2 [this]
      ring
    · rw [if_neg h]
      exact ⟨z, rfl, rfl, hs⟩

theorem layout_exact {s : Nat} (hs : 1 ≤ s) (z : Nat) (hv : s * 10 ^ z < 2 ^ 53) :
    layout s (z : Int) = toString (s * 10 ^ z) := by
  have hdig := toDigits_mul_pow hs z
  have hlen := toDigits_length_le hv
  rw [hdig, List.length_append, List.length_replicate] at hlen
  unfold layout
  have hcond : ((Nat.toDigits 10 s).length : Int) ≤ (z : Int) + ((Nat.toDigits 10 s).length : Int)
      ∧ (z : Int) + ((Nat.toDigits 10 s).length : Int) ≤ 21 := by
    constructor <;> omega
  have hz : ((z : Int) + ((Nat.toDigits 10 s).length : Int)
      - ((Nat.toDigits 10 s).length : Int)).toNat = z := by omega
  simp only [if_pos hcond, hz]
  show _ = Nat.repr (s * 10 ^ z)
  unfold Nat.repr
  rw [hdig]
  rfl

/-- An integer below `2 ^ 53` prints as its decimal rendering. -/
theorem toJSString_exact {v : Nat} (hv : v < 2 ^ 53) :
    (JSNumber.finite false (v * unitsPerOne)).toJSString = toString v := by
  by_cases h0 : v = 0
  · subst h0
    simp only [JSNumber.toJSString, Nat.zero_mul, if_true]
    rfl
  · have h1 : 1 ≤ v := Nat.pos_of_ne_zero h0
    have hk : v * unitsPerOne ≠ 0 := Nat.mul_ne_zero h0 (Nat.pos_iff_ne_zero.mp unitsPerOne_pos)
    have hlen := toDigits_length_le hv
    obtain ⟨z, hz, hval⟩ := shortestFrom_exact hv (Nat.toDigits 10 v).length 17 1
      (by
        have := toDigits_ne_nil v
        have : 0 < (Nat.toDigits 10 v).length := List.length_pos.mpr this
        omega)
      (by omega)
    have hs0 : (shortestFrom (v * unitsPerOne) ((Nat.toDigits 10 v).length : Int) 17 1).1 ≠ 0 := by
      intro h
      rw [h] at hval
      omega
    obtain ⟨z2, hz2, hval2, hne⟩ := stripZeros_exact 17 _ z hs0
    simp only [JSNumber.toJSString, if_neg hk, Bool.false_eq_true, if_false, positiveToString,
      shortestDigits, decimalExponent_exact h1]
    rw [hz, hz2]
    have hv2 : (stripZeros 17
        (shortestFrom (v * unitsPerOne) ((Nat.toDigits 10 v).length : Int) 17 1).1 (z : Int)).1
          * 10 ^ z2 = v := by rw [hval2, hval]
    rw [layout_exact (Nat.pos_of_ne_zero hne) z2 (by rw [hv2]; exact hv), hv2]

/-! ## Dividing a millisecond count by 1000 -/

theorem roundHalfEven_mul_right (N D : Nat) {c : Nat} (hc : 0 < c) :
    roundHalfEven (N * c) (D * c) = roundHalfEven N D := by
  unfold roundHalfEven
  have hq : N * c / (D * c) = N / D := Nat.mul_div_mul_right N D hc
  have hr : N * c % (D * c) = N % D * c := Nat.mul_mod_mul_right c N D
  simp only [hq, hr]
  have h1 : 2 * (N % D * c) < D * c ↔ 2 * (N % D) < D := by
    rw [← Nat.mul_assoc]
    exact Nat.mul_lt_mul_right hc
  have h2 : D * c < 2 * (N % D * c) ↔ D < 2 * (N % D) := by
    rw [← Nat.mul_assoc]
    exact Nat.mul_lt_mul_right hc
  simp only [h1, h2]

theorem roundUnits_mul_right (N D : Nat) {c : Nat} (hc : 0 < c) :
    roundUnits (N * c) (D * c) = roundUnits N D := by
  unfold roundUnits
  have hq : N * c / (D * c) = N / D := Nat.mul_div_mul_right N D hc
  simp only [hq]
  rw [Nat.mul_right_comm D c, roundHalfEven_mul_right _ _ hc]

/-- Rounding `a * H / 1000` to the nearest integer stays within the whole second `a`
falls in, as soon as one second is more than 500 quanta. -/
theorem roundHalfEven_seconds (a H : Nat) (hH : 500 < H) :
    a / 1000 * H ≤ roundHalfEven (a * H) 1000 ∧
      roundHalfEven (a * H) 1000 < (a / 1000 + 1) * H := by
  have ha : a * H = 1000 * (a / 1000 * H) + a % 1000 * H := by
    have h := Nat.div_add_mod a 1000
    calc a * H = (1000 * (a / 1000) + a % 1000) * H := by rw [h]
      _ = 1000 * (a / 1000 * H) + a % 1000 * H := by ring
  have hP : a % 1000 * H ≤ 999 * H :=
    Nat.mul_le_mul (by omega) (Nat.le_refl H)
  have hK : (a / 1000 + 1) * H = a / 1000 * H + H := by ring
  rw [ha, hK]
  generalize a / 1000 * H = K
  generalize a % 1000 * H = P at hP
  unfold roundHalfEven
  simp only
  split_ifs <;> omega

theorem div_thousand_lt {N e : Nat} (h : N < 2 ^ (e + 9)) : N / 1000 < 2 ^ e := by
  rw [Nat.div_lt_iff_lt_mul (by decide)]
  rw [Nat.pow_add] at h
  have h9 : (2 : Nat) ^ 9 = 512 := by norm_num
  rw [h9] at h
  have := Nat.mul_le_mul (Nat.le_refl (2 ^ e)) (show 512 ≤ 1000 by decide)
  omega

theorem roundUnits_seconds {a : Nat} (ha : a < 2 ^ 53) :
    a / 1000 * unitsPerOne ≤ roundUnits (a * unitsPerOne) 1000 ∧
      roundUnits (a * unitsPerOne) 1000 < (a / 1000 + 1) * unitsPerOne := by
  have hjle : bitLength (a * unitsPerOne / 1000) - 53 ≤ 1065 := by
    have h1 := mul_two_pow_lt unitsPerOne_eq ha
    rw [show 53 + 1074 = 1118 + 9 from rfl] at h1
    have := bitLength_le (div_thousand_lt h1)
    omega
  unfold roundUnits
  dsimp only
  generalize bitLength (a * unitsPerOne / 1000) - 53 = j at hjle
  obtain ⟨d, hd⟩ : ∃ d, 1074 = j + d ∧ 9 ≤ d := ⟨1074 - j, by omega, by omega⟩
  have hU : unitsPerOne = 2 ^ d * 2 ^ j := by
    rw [unitsPerOne_eq, hd.1, Nat.pow_add, Nat.mul_comm]
  have hH : 500 < 2 ^ d := by
    have h9 : 2 ^ 9 ≤ 2 ^ d := two_pow_le hd.2
    have : (2 : Nat) ^ 9 = 512 := by norm_num
    omega
  have hG := two_pow_pos j
  rw [hU, ← Nat.mul_assoc a, roundHalfEven_mul_right _ _ hG]
  obtain ⟨hlo, hhi⟩ := roundHalfEven_seconds a (2 ^ d) hH
  constructor
  · rw [← Nat.mul_assoc]
    exact Nat.mul_le_mul hlo (Nat.le_refl _)
  · rw [← Nat.mul_assoc]
    exact Nat.mul_lt_mul_of_lt_of_le hhi (Nat.le_refl _) hG

end JS

namespace Metadata

open JS

/-! ## The metadata handler (claims C1, C9) -/

/-- C1, claim as stated, refuted: for the token id `2 ^ 53 + 1 = 9007199254740993`,
passed as its decimal string, `Number(tokenId)` is the double `2 ^ 53`, so the image
URL ends in `9007199254740991.svg` and not in the rendering of `id - 1`, which is
`9007199254740992`. -/
theorem handler_image_counterexample :
    1 ≤ 9007199254740993 ∧
    (handler (toString 9007199254740993)).body.lookup "image"
      = some (imageBase ++ "9007199254740991.svg") ∧
    (handler (toString 9007199254740993)).body.lookup "image"
      ≠ some (imageBase ++ toString (9007199254740993 - 1) ++ ".svg") := by
  decide!

/-- C1, amended: for every integer token id `n` with `1 ≤ n ≤ 2 ^ 53` passed as its
decimal string, the `image` member of the response is the fixed base URL followed by
the decimal rendering of `n - 1` and `.svg`. -/
theorem handler_image (n : Nat) (h1 : 1 ≤ n) (hn : n ≤ 2 ^ 53) :
    (handler (toString n)).body.lookup "image"
      = some ("https://raw.githubusercontent.com/LearnWeb3DAO/NFT-Collection/main/my-app/public/cryptodevs/"
          ++ toString (n - 1) ++ ".svg") := by
  have hlt : n - 1 < 2 ^ 53 := by omega
  have himg : ((Number (toString n)).sub JSNumber.one).toJSString = toString (n - 1) := by
    rw [Number_toString, ofDecimal_exact hn, sub_one_exact h1 hn, toJSString_exact hlt]
  simp [handler, List.lookup, himg, imageBase]

theorem handler_image_witness :
    (handler "5").body.lookup "image"
      = some ("https://raw.githubusercontent.com/LearnWeb3DAO/NFT-Collection/main/my-app/public/cryptodevs/"
          ++ "4" ++ ".svg") :=
  handler_image 5 (by decide) (by norm_num)

/-- The identifier is neither validated nor normalised: text that is not a number
puts `NaN` in the URL, the empty string and fractions give negative or fractional
indices, and large values are printed in exponential form. -/
theorem handler_image_unvalidated :
    (handler "abc").body.lookup "image" = some (imageBase ++ "NaN.svg") ∧
    (handler "").body.lookup "image" = some (imageBase ++ "-1.svg") ∧
    (handler "0.5").body.lookup "image" = some (imageBase ++ "-0.5.svg") ∧
    (handler "0x10").body.lookup "image" = some (imageBase ++ "15.svg") ∧
    (handler "1e21").body.lookup "image" = some (imageBase ++ "1e+21.svg") := by
  decide!

/-- C9: for every token identifier string, numeric or not, the handler answers with
status 200 and a JSON object whose members are exactly `name`, `description` and
`image`, in that order; `name` is "Crypto dev dhruv #" followed by the identifier
exactly as given and `description` is the fixed text. -/
theorem handler_fields (t : String) :
    (handler t).status = 200 ∧
    (handler t).body.map Prod.fst = ["name", "description", "image"] ∧
    (handler t).body.lookup "name" = some ("Crypto dev dhruv #" ++ t) ∧
    (handler t).body.lookup "description"
      = some "Cryptodev is NFT collection for Web3 developer by double R" ∧
    (∃ url, (handler t).body.lookup "image" = some url) := by
  refine ⟨rfl, rfl, ?_, ?_, ?_⟩
  · simp [handler, List.lookup]
  · simp [handler, List.lookup]
  · simp [handler, List.lookup]

end Metadata

namespace MintConsole

/-! ## Generic lemmas about `Async` -/

theorem bind_apply {α β : Type} (m : Async α) (f : α → Async β) (s : Session) :
    (m >>= f) s = Async.bind m f s := rfl

theorem pure_apply {α : Type} (a : α) (s : Session) :
    (pure a : Async α) s = Async.pure a s := rfl

theorem keeps_pure {α : Type} (P : Session → Prop) (a : α) : Keeps P (pure a : Async α) :=
  fun _ h => h

theorem keeps_bind {α β : Type} {P : Session → Prop} {m : Async α} {f : α → Async β}
    (hm : Keeps P m) (hf : ∀ a, Keeps P (f a)) : Keeps P (m >>= f) := by
  intro s hs
  have h1 := hm s hs
  rw [bind_apply]
  unfold Async.bind
  cases hout : (m s).outcome with
  | error t => simpa [hout] using h1
  | ok a => simpa [hout] using hf a _ h1

theorem keeps_tryCatch {α : Type} {P : Session → Prop} {body : Async α}
    {handler : Thrown → Async α}
    (hb : Keeps P body) (hh : ∀ t, Keeps P (handler t)) : Keeps P (tryCatch body handler) := by
  intro s hs
  have h1 := hb s hs
  unfold tryCatch
  cases hout : (body s).outcome with
  | error t => simpa [hout] using hh t _ h1
  | ok a => simpa [hout] using h1

theorem keeps_throwJs {α : Type} (P : Session → Prop) (t : Thrown) :
    Keeps P (throwJs t : Async α) :=
  fun _ h => h

theorem keeps_awaitExternal {α : Type} (P : Session → Prop) (p : Option α) :
    Keeps P (awaitExternal p) := by
  cases p with
  | none => exact fun _ h => h
  | some v => exact fun _ h => h

theorem keeps_windowAlert (P : Session → Prop) (msg : String) : Keeps P (windowAlert msg) :=
  fun _ h => h

theorem keeps_consoleWrite (P : Session → Prop) (l : Log) : Keeps P (consoleWrite l) :=
  fun _ h => h

theorem keeps_modifySession {P : Session → Prop} {f : Session → Session}
    (h : ∀ s, P s → P (f s)) : Keeps P (modifySession f) :=
  fun s hs => h s hs

theorem keeps_getProviderOrSigner (P : Session → Prop) (w : Wallet) (needSigner : Bool) :
    Keeps P (getProviderOrSigner w needSigner) := by
  unfold getProviderOrSigner
  refine keeps_bind (keeps_awaitExternal P _) fun _ => ?_
  refine keeps_bind (keeps_awaitExternal P _) fun chainId => ?_
  by_cases hc : chainId ≠ 5
  · rw [if_pos hc]
    exact keeps_bind (keeps_windowAlert P _) fun _ => keeps_throwJs P _
  · rw [if_neg hc]
    cases needSigner <;> exact keeps_pure P _

/-! ## Evaluation lemmas -/

theorem wallet_cases (w : Wallet) :
    (∃ n, w = ⟨false, n⟩) ∨ w = ⟨true, none⟩ ∨
      (∃ c, c ≠ 5 ∧ w = ⟨true, some c⟩) ∨ w = ⟨true, some 5⟩ := by
  rcases w with ⟨c, n⟩
  cases c
  · exact Or.inl ⟨n, rfl⟩
  · cases n with
    | none => simp
    | some k =>
      by_cases hk : k = 5
      · subst hk; simp
      · simp [hk]

theorem getProviderOrSigner_connect_fail (n : Option Nat) (b : Bool) (s : Session) :
    getProviderOrSigner ⟨false, n⟩ b s =
      { outcome := .error Thrown.external, ui := s, alerts := [], console := [] } := by
  simp [getProviderOrSigner, bind_apply, Async.bind, awaitExternal, throwJs]

theorem getProviderOrSigner_network_fail (b : Bool) (s : Session) :
    getProviderOrSigner ⟨true, none⟩ b s =
      { outcome := .error Thrown.external, ui := s, alerts := [], console := [] } := by
  simp [getProviderOrSigner, bind_apply, Async.bind, awaitExternal, throwJs, Async.pure]

theorem getProviderOrSigner_wrong_chain (c : Nat) (hc : c ≠ 5) (b : Bool) (s : Session) :
    getProviderOrSigner ⟨true, some c⟩ b s =
      { outcome := .error Thrown.wrongNetwork, ui := s, alerts := [goerliAlert],
        console := [] } := by
  simp [getProviderOrSigner, bind_apply, Async.bind, awaitExternal, throwJs, Async.pure,
    windowAlert, hc]

theorem getProviderOrSigner_goerli (b : Bool) (s : Session) :
    getProviderOrSigner ⟨true, some 5⟩ b s =
      { outcome := .ok (if b then Handle.signer else Handle.web3Provider),
        ui := s, alerts := [], console := [] } := by
  cases b <;>
    simp [getProviderOrSigner, bind_apply, pure_apply, Async.bind, awaitExternal, Async.pure]

theorem session_loading_false (s : Session) (h : s.loading = false) :
    { s with loading := false } = s := by
  cases s
  simp_all

theorem getOwner_outcome (e : OwnerEnv) (s : Session) : (getOwner e s).outcome = .ok () := by
  rcases e with ⟨w, o, a⟩
  rcases wallet_cases w with ⟨n, rfl⟩ | rfl | ⟨c, hc, rfl⟩ | rfl <;> rcases o with _ | o <;>
    rcases a with _ | a <;>
    first
    | (by_cases h : toLowerCase a = toLowerCase o <;>
        simp [getOwner, getProviderOrSigner_connect_fail, getProviderOrSigner_network_fail,
          getProviderOrSigner_wrong_chain, getProviderOrSigner_goerli, bind_apply, pure_apply,
          Async.bind, Async.pure, tryCatch, awaitExternal, throwJs, consoleWrite, setIsOwner,
          modifySession, *])
    | simp [getOwner, getProviderOrSigner_connect_fail, getProviderOrSigner_network_fail,
        getProviderOrSigner_wrong_chain, getProviderOrSigner_goerli, bind_apply, pure_apply,
        Async.bind, Async.pure, tryCatch, awaitExternal, throwJs, consoleWrite, *]

theorem getOwner_ui (e : OwnerEnv) (s : Session) :
    (getOwner e s).ui = { s with isOwner := s.isOwner || e.ownerMatches } := by
  rcases e with ⟨w, o, a⟩
  rcases s with ⟨wc, ps, io, pe, ld, nm⟩
  rcases wallet_cases w with ⟨n, rfl⟩ | rfl | ⟨c, hc, rfl⟩ | rfl <;> rcases o with _ | o <;>
    rcases a with _ | a <;>
    first
    | (by_cases h : toLowerCase a = toLowerCase o <;>
        simp [getOwner, OwnerEnv.ownerMatches, getProviderOrSigner_connect_fail,
          getProviderOrSigner_network_fail,
          getProviderOrSigner_wrong_chain, getProviderOrSigner_goerli, bind_apply, pure_apply,
          Async.bind, Async.pure, tryCatch, awaitExternal, throwJs, consoleWrite, setIsOwner,
          modifySession, *])
    | simp [getOwner, OwnerEnv.ownerMatches, getProviderOrSigner_connect_fail,
        getProviderOrSigner_network_fail,
        getProviderOrSigner_wrong_chain, getProviderOrSigner_goerli, bind_apply, pure_apply,
        Async.bind, Async.pure, tryCatch, awaitExternal, throwJs, consoleWrite, *]

/-! ## Rendering (claims C3, C4) -/

/-- C3, claim as stated, refuted: in the session state with the wallet connected,
`isOwner = true`, `presaleStarted = false` and `loading = true` (the state right after
the owner pressed "Start PreSale"), `renderBody` yields the loading button and not the
start-presale control. -/
theorem renderBody_owner_not_started_counterexample :
    ({ walletConnected := true, presaleStarted := false, isOwner := true,
       presaleEnded := false, loading := true, numTokenMinted := "" } : Session).isOwner = true ∧
    ({ walletConnected := true, presaleStarted := false, isOwner := true,
       presaleEnded := false, loading := true, numTokenMinted := "" } : Session).presaleStarted
        = false ∧
    renderBody { walletConnected := true, presaleStarted := false, isOwner := true,
                 presaleEnded := false, loading := true, numTokenMinted := "" }
      = some Element.loadingButton ∧
    renderBody { walletConnected := true, presaleStarted := false, isOwner := true,
                 presaleEnded := false, loading := true, numTokenMinted := "" }
      ≠ some Element.startPresaleButton := by
  decide

/-- C3, amended: in every session state with `isOwner = true` and
`presaleStarted = false`, `renderBody` never yields the generic not-started message;
it yields the start-presale control exactly when the wallet is connected and nothing
is loading, the connect button when the wallet is not connected, and the loading
button when the wallet is connected and `loading` is set. -/
theorem renderBody_owner_not_started (s : Session)
    (ho : s.isOwner = true) (hs : s.presaleStarted = false) :
    renderBody s ≠ some Element.notStartedMessage ∧
    (s.walletConnected = true → s.loading = false →
      renderBody s = some Element.startPresaleButton) ∧
    (s.walletConnected = false → renderBody s = some Element.connectButton) ∧
    (s.walletConnected = true → s.loading = true →
      renderBody s = some Element.loadingButton) := by
  rcases s with ⟨wc, ps, io, pe, ld, nm⟩
  simp only at ho hs
  subst ho hs
  cases wc <;> cases ld <;> simp [renderBody]

theorem renderBody_owner_not_started_witness :
    renderBody { walletConnected := true, presaleStarted := false, isOwner := true,
                 presaleEnded := false, loading := false, numTokenMinted := "3" }
      = some Element.startPresaleButton :=
  (renderBody_owner_not_started
    { walletConnected := true, presaleStarted := false, isOwner := true,
      presaleEnded := false, loading := false, numTokenMinted := "3" } rfl rfl).2.1 rfl rfl

/-- C4: `renderBody` always returns an element (it never reaches its end without a
`return`), that element is the one attached to the first condition that holds in the
priority order not-connected, loading, owner-and-not-started, not-started,
presale-active, presale-ended, and exactly one element is returned. -/
theorem renderBody_total_priority (s : Session) :
    renderBody s = firstByPriority s ∧
    (renderBody s).isSome = true ∧
    (∃! el, renderBody s = some el) := by
  rcases s with ⟨wc, ps, io, pe, ld, nm⟩
  cases wc <;> cases ps <;> cases io <;> cases pe <;> cases ld <;>
    simp [renderBody, firstByPriority, renderPriority, List.find?]

/-! ## Mint actions (claims C5, C8) -/

/-- C5: both mint actions complete (they resolve, never reject) with the loading flag
false, from every session state and for every outcome of the external steps. -/
theorem mint_clears_loading (e : TxEnv) (s : Session) :
    (presaleMint e s).ui.loading = false ∧ (presaleMint e s).outcome = .ok () ∧
    (publicMint e s).ui.loading = false ∧ (publicMint e s).outcome = .ok () := by
  rcases e with ⟨w, sub, wt⟩
  rcases wallet_cases w with ⟨n, rfl⟩ | rfl | ⟨c, hc, rfl⟩ | rfl <;> cases sub <;> cases wt <;>
    simp [presaleMint, publicMint, getProviderOrSigner_connect_fail,
      getProviderOrSigner_network_fail, getProviderOrSigner_wrong_chain,
      getProviderOrSigner_goerli, bind_apply, pure_apply, Async.bind, Async.pure, tryCatch,
      awaitExternal, throwJs, windowAlert, consoleWrite, modifySession, setLoading, *]

/-- C8: when an external step of `presaleMint`, `publicMint` or `startPresale` fails
and the action was started with `loading = false`, the session state after the action
equals the state before it, no success alert is raised, and the only alert that can
be raised is the wrong-network one. -/
theorem write_actions_failure_atomic (e : TxEnv) (s : Session)
    (hl : s.loading = false) (hf : e.allStepsSucceed = false) :
    ((presaleMint e s).ui = s ∧ presaleSuccessAlert ∉ (presaleMint e s).alerts ∧
      ∀ a ∈ (presaleMint e s).alerts, a = goerliAlert) ∧
    ((publicMint e s).ui = s ∧ publicSuccessAlert ∉ (publicMint e s).alerts ∧
      ∀ a ∈ (publicMint e s).alerts, a = goerliAlert) ∧
    ((startPresale e s).ui = s ∧ ∀ a ∈ (startPresale e s).alerts, a = goerliAlert) := by
  have hp : presaleSuccessAlert ≠ goerliAlert := by decide
  have hq : publicSuccessAlert ≠ goerliAlert := by decide
  rcases e with ⟨w, sub, wt⟩
  rcases wallet_cases w with ⟨n, rfl⟩ | rfl | ⟨c, hc, rfl⟩ | rfl <;> cases sub <;> cases wt <;>
    first
    | (exfalso; revert hf; simp [TxEnv.allStepsSucceed]; done)
    | simp [presaleMint, publicMint, startPresale, getProviderOrSigner_connect_fail,
        getProviderOrSigner_network_fail, getProviderOrSigner_wrong_chain,
        getProviderOrSigner_goerli, bind_apply, pure_apply, Async.bind, Async.pure, tryCatch,
        awaitExternal, throwJs, windowAlert, consoleWrite, modifySession, setLoading,
        setPresaleStarted, session_loading_false s hl, hp, hq, *]

theorem write_actions_failure_atomic_witness :
    (presaleMint { wallet := { connect := true, network := some 1 }, submit := true,
                   wait := true } initialSession).ui = initialSession ∧
    (startPresale { wallet := { connect := true, network := some 1 }, submit := true,
                    wait := true } initialSession).ui = initialSession :=
  ⟨(write_actions_failure_atomic
      { wallet := { connect := true, network := some 1 }, submit := true, wait := true }
      initialSession rfl (by decide)).1.1,
   (write_actions_failure_atomic
      { wallet := { connect := true, network := some 1 }, submit := true, wait := true }
      initialSession rfl (by decide)).2.2.1⟩

/-! ## Wallet and network (claims C6, C7) -/

/-- C6: a `connectWallet` attempt on which the wallet reports a chain id other than 5
leaves `walletConnected` as it was, so a flag that was false stays false; the whole
session state is unchanged and the wrong-network alert is the only alert. -/
theorem connectWallet_wrong_network (s : Session) (c : Nat)
    (hc : c ≠ 5) (hs : s.walletConnected = false) :
    (connectWallet { connect := true, network := some c } s).ui.walletConnected = false ∧
    (connectWallet { connect := true, network := some c } s).ui = s ∧
    (connectWallet { connect := true, network := some c } s).alerts = [goerliAlert] := by
  simp [connectWallet, getProviderOrSigner_wrong_chain c hc, bind_apply, Async.bind, tryCatch,
    consoleWrite, hs]

theorem connectWallet_wrong_network_witness :
    (connectWallet { connect := true, network := some 1 } initialSession).ui.walletConnected
      = false :=
  (connectWallet_wrong_network initialSession 1 (by decide) rfl).1

/-- C7: once the wallet connection and the network query have succeeded,
`getProviderOrSigner` throws exactly when the reported chain id is not 5, and then the
thrown value is the wrong-network error raised after the alert "Change the network to
Goerli"; on chain id 5 it returns the signer when `needSigner` is true and the
read-only provider otherwise, with no alert. The session state is never touched. -/
theorem getProviderOrSigner_network_check (c : Nat) (needSigner : Bool) (s : Session) :
    ((∃ t, (getProviderOrSigner { connect := true, network := some c } needSigner s).outcome
        = .error t) ↔ c ≠ 5) ∧
    (c ≠ 5 →
      (getProviderOrSigner { connect := true, network := some c } needSigner s).outcome
        = .error Thrown.wrongNetwork ∧
      (getProviderOrSigner { connect := true, network := some c } needSigner s).alerts
        = ["Change the network to Goerli"]) ∧
    (c = 5 →
      (getProviderOrSigner { connect := true, network := some c } needSigner s).outcome
        = .ok (if needSigner then Handle.signer else Handle.web3Provider) ∧
      (getProviderOrSigner { connect := true, network := some c } needSigner s).alerts = []) ∧
    (getProviderOrSigner { connect := true, network := some c } needSigner s).ui = s := by
  by_cases hc : c = 5
  · subst hc
    simp [getProviderOrSigner_goerli]
  · simp [getProviderOrSigner_wrong_chain c hc, hc, goerliAlert]

theorem getProviderOrSigner_network_check_witness :
    (getProviderOrSigner { connect := true, network := some 5 } true initialSession).outcome
        = .ok Handle.signer ∧
    (getProviderOrSigner { connect := true, network := some 1 } false initialSession).outcome
        = .error Thrown.wrongNetwork :=
  ⟨((getProviderOrSigner_network_check 5 true initialSession).2.2.1 rfl).1,
   ((getProviderOrSigner_network_check 1 false initialSession).2.1 (by decide)).1⟩

/-! ## The clock arithmetic of `checkIfPresaleEnded` -/

/-- For every clock reading below `2 ^ 53` milliseconds (a range that contains every
time value a `Date` can hold), the double computation `Math.floor(now / 1000)` is the
integer quotient `currentTimeFloor`. -/
theorem floorSecondsDouble_exact {now : Nat} (h : now < 2 ^ 53) :
    floorSecondsDouble now
      = JS.JSNumber.finite false ((currentTimeFloor (now : Int)).toNat * JS.unitsPerOne) := by
  have hcast : (currentTimeFloor (now : Int)).toNat = now / 1000 := by
    unfold currentTimeFloor
    omega
  rw [hcast]
  have h1000 : (1000 : Nat) ≤ 2 ^ 53 := by norm_num
  have hk : now / 1000 + 1 ≤ 2 ^ 53 := by omega
  have hU := JS.unitsPerOne_pos
  have hne : 1000 * JS.unitsPerOne ≠ 0 :=
    Nat.mul_ne_zero (by decide) (Nat.pos_iff_ne_zero.mp hU)
  obtain ⟨hlo, hhi⟩ := JS.roundUnits_seconds h
  have hfin : ¬ (2 ^ 2098 ≤ JS.roundUnits (now * JS.unitsPerOne) 1000) :=
    fun hc => JS.not_overflow hk (le_trans hc (le_of_lt hhi))
  have hdiv : JS.roundUnits (now * JS.unitsPerOne) 1000 / JS.unitsPerOne = now / 1000 :=
    Nat.div_eq_of_lt_le hlo hhi
  unfold floorSecondsDouble
  rw [JS.ofDecimal_exact (le_of_lt h), JS.ofDecimal_exact h1000]
  simp only [JS.JSNumber.div, if_neg hne, bne_self_eq_false, JS.ofUnitsRatio,
    JS.roundUnits_mul_right _ _ hU, if_neg hfin, JS.JSNumber.floor, hdiv]

/-! ## Phase derivation (claim C2) -/

/-- C2, claim as stated, refuted: with the presale started, an end timestamp of 100 s
and a clock reading of exactly 100 s (`Date.now() = 100000`), the end timestamp is not
after the current time, yet a successful poll tick leaves `presaleEnded = false`, that
is phase `Presale` and not `PublicSale`. -/
theorem presaleTick_boundary_counterexample :
    ((100 : Nat) : Int) * 1000 ≤ 100000 ∧
    (presaleTick
        { wallet := goerliWallet, presaleStarted := some true,
          owner := { wallet := goerliWallet, owner := none, address := none } }
        { wallet := goerliWallet, presaleEnded := some 100, now := 100000 }
        initialSession).ui.presaleEnded = false ∧
    phase (presaleTick
        { wallet := goerliWallet, presaleStarted := some true,
          owner := { wallet := goerliWallet, owner := none, address := none } }
        { wallet := goerliWallet, presaleEnded := some 100, now := 100000 }
        initialSession).ui = Phase.Presale := by
  refine ⟨by decide, ?_, ?_⟩ <;>
    simp [presaleTick, checkIfPresaleStarted, checkIfPresaleEnded, goerliWallet,
      getProviderOrSigner_goerli, bind_apply, pure_apply, Async.bind, Async.pure, tryCatch,
      awaitExternal, modifySession, setPresaleStarted, setPresaleEnded, currentTimeFloor,
      phase, initialSession]

/-- C2, amended: after a successful poll tick (wallet on chain 5, contract reads
resolve), with `started` the flag read, `endTs` the end timestamp in seconds and `now`
the clock in milliseconds: `started = false` gives phase `NotStarted` whatever the
timestamp; `started = true` and `endTs` not below the whole seconds of the clock
(in particular `endTs` after the current time) gives `Presale`, with
`presaleStarted = true` and `presaleEnded = false`; `started = true` and `endTs`
strictly below the whole seconds of the clock gives `PublicSale`, with
`presaleEnded = true`. -/
theorem presaleTick_phase (s : Session) (oe : OwnerEnv) (started : Bool) (endTs : Nat)
    (now : Int) :
    (started = false →
      phase (presaleTick { wallet := goerliWallet, presaleStarted := some started, owner := oe }
              { wallet := goerliWallet, presaleEnded := some endTs, now := now } s).ui
        = Phase.NotStarted) ∧
    (started = true → now / 1000 ≤ (endTs : Int) →
      phase (presaleTick { wallet := goerliWallet, presaleStarted := some started, owner := oe }
              { wallet := goerliWallet, presaleEnded := some endTs, now := now } s).ui
        = Phase.Presale ∧
      (presaleTick { wallet := goerliWallet, presaleStarted := some started, owner := oe }
              { wallet := goerliWallet, presaleEnded := some endTs, now := now } s).ui.presaleStarted
        = true ∧
      (presaleTick { wallet := goerliWallet, presaleStarted := some started, owner := oe }
              { wallet := goerliWallet, presaleEnded := some endTs, now := now } s).ui.presaleEnded
        = false) ∧
    (started = true → now < (endTs : Int) * 1000 →
      phase (presaleTick { wallet := goerliWallet, presaleStarted := some started, owner := oe }
              { wallet := goerliWallet, presaleEnded := some endTs, now := now } s).ui
        = Phase.Presale) ∧
    (started = true → (endTs : Int) < now / 1000 →
      phase (presaleTick { wallet := goerliWallet, presaleStarted := some started, owner := oe }
              { wallet := goerliWallet, presaleEnded := some endTs, now := now } s).ui
        = Phase.PublicSale ∧
      (presaleTick { wallet := goerliWallet, presaleStarted := some started, owner := oe }
              { wallet := goerliWallet, presaleEnded := some endTs, now := now } s).ui.presaleEnded
        = true) := by
  refine ⟨?_, ?_, ?_, ?_⟩
  · rintro rfl
    simp [presaleTick, checkIfPresaleStarted, goerliWallet, getProviderOrSigner_goerli,
      bind_apply, pure_apply, Async.bind, Async.pure, tryCatch, awaitExternal, modifySession,
      setPresaleStarted, getOwner_outcome, getOwner_ui, phase]
  · rintro rfl h
    have h2 : ¬ ((endTs : Int) < now / 1000) := by omega
    simp [presaleTick, checkIfPresaleStarted, checkIfPresaleEnded, goerliWallet,
      getProviderOrSigner_goerli, bind_apply, pure_apply, Async.bind, Async.pure, tryCatch,
      awaitExternal, modifySession, setPresaleStarted, setPresaleEnded, currentTimeFloor,
      phase, h2]
  · rintro rfl h
    have h2 : ¬ ((endTs : Int) < now / 1000) := by omega
    simp [presaleTick, checkIfPresaleStarted, checkIfPresaleEnded, goerliWallet,
      getProviderOrSigner_goerli, bind_apply, pure_apply, Async.bind, Async.pure, tryCatch,
      awaitExternal, modifySession, setPresaleStarted, setPresaleEnded, currentTimeFloor,
      phase, h2]
  · rintro rfl h
    simp [presaleTick, checkIfPresaleStarted, checkIfPresaleEnded, goerliWallet,
      getProviderOrSigner_goerli, bind_apply, pure_apply, Async.bind, Async.pure, tryCatch,
      awaitExternal, modifySession, setPresaleStarted, setPresaleEnded, currentTimeFloor,
      phase, h]

theorem presaleTick_phase_witness :
    phase (presaleTick
        { wallet := goerliWallet, presaleStarted := some true,
          owner := { wallet := goerliWallet, owner := none, address := none } }
        { wallet := goerliWallet, presaleEnded := some 100, now := 101000 }
        initialSession).ui = Phase.PublicSale ∧
    phase (presaleTick
        { wallet := goerliWallet, presaleStarted := some true,
          owner := { wallet := goerliWallet, owner := none, address := none } }
        { wallet := goerliWallet, presaleEnded := some 100, now := 100999 }
        initialSession).ui = Phase.Presale ∧
    phase (presaleTick
        { wallet := goerliWallet, presaleStarted := some false,
          owner := { wallet := goerliWallet, owner := none, address := none } }
        { wallet := goerliWallet, presaleEnded := some 100, now := 101000 }
        initialSession).ui = Phase.NotStarted :=
  ⟨((presaleTick_phase initialSession
      { wallet := goerliWallet, owner := none, address := none } true 100 101000).2.2.2
      rfl (by decide)).1,
   ((presaleTick_phase initialSession
      { wallet := goerliWallet, owner := none, address := none } true 100 100999).2.1
      rfl (by decide)).1,
   (presaleTick_phase initialSession
      { wallet := goerliWallet, owner := none, address := none } false 100 101000).1 rfl⟩

/-! ## Owner flag (claim C10) -/

theorem keeps_isOwner_writeBody (e : TxEnv) (msg : String) :
    Keeps (fun s => s.isOwner = true)
      (tryCatch
        (do
          let _signer ← getProviderOrSigner e.wallet true
          let _txn ← awaitExternal (if e.submit then some () else none)
          awaitExternal (if e.wait then some () else none)
          windowAlert msg)
        (fun error => consoleWrite (Log.error error))) :=
  keeps_tryCatch
    (keeps_bind (keeps_getProviderOrSigner _ _ _) fun _ =>
      keeps_bind (keeps_awaitExternal _ _) fun _ =>
        keeps_bind (keeps_awaitExternal _ _) fun _ => keeps_windowAlert _ _)
    (fun _ => keeps_consoleWrite _ _)

theorem keeps_isOwner_setLoading (b : Bool) : Keeps (fun s => s.isOwner = true) (setLoading b) :=
  keeps_modifySession fun _ h => h

theorem keeps_isOwner_presaleMint (e : TxEnv) :
    Keeps (fun s => s.isOwner = true) (presaleMint e) :=
  keeps_bind (keeps_isOwner_setLoading _) fun _ =>
    keeps_bind (keeps_isOwner_writeBody e _) fun _ => keeps_isOwner_setLoading _

theorem keeps_isOwner_publicMint (e : TxEnv) :
    Keeps (fun s => s.isOwner = true) (publicMint e) :=
  keeps_bind (keeps_isOwner_setLoading _) fun _ =>
    keeps_bind (keeps_isOwner_writeBody e _) fun _ => keeps_isOwner_setLoading _

theorem keeps_isOwner_startPresale (e : TxEnv) :
    Keeps (fun s => s.isOwner = true) (startPresale e) :=
  keeps_bind (keeps_isOwner_setLoading _) fun _ =>
    keeps_bind
      (keeps_tryCatch
        (keeps_bind (keeps_getProviderOrSigner _ _ _) fun _ =>
          keeps_bind (keeps_awaitExternal _ _) fun _ =>
            keeps_bind (keeps_isOwner_setLoading _) fun _ =>
              keeps_bind (keeps_awaitExternal _ _) fun _ =>
                keeps_bind (keeps_isOwner_setLoading _) fun _ =>
                  keeps_modifySession fun _ h => h)
        (fun _ => keeps_consoleWrite _ _))
      fun _ => keeps_isOwner_setLoading _

theorem keeps_isOwner_connectWallet (w : Wallet) :
    Keeps (fun s => s.isOwner = true) (connectWallet w) :=
  keeps_tryCatch
    (keeps_bind (keeps_getProviderOrSigner _ _ _) fun _ => keeps_modifySession fun _ h => h)
    (fun _ => keeps_consoleWrite _ _)

theorem keeps_isOwner_getOwner (e : OwnerEnv) :
    Keeps (fun s => s.isOwner = true) (getOwner e) := by
  intro s hs
  rw [getOwner_ui]
  simp [hs]

theorem keeps_isOwner_getNumOfMintedToken (e : MintedEnv) :
    Keeps (fun s => s.isOwner = true) (getNumOfMintedToken e) :=
  keeps_tryCatch
    (keeps_bind (keeps_getProviderOrSigner _ _ _) fun _ =>
      keeps_bind (keeps_awaitExternal _ _) fun _ => keeps_modifySession fun _ h => h)
    (fun _ => keeps_consoleWrite _ _)

theorem keeps_isOwner_checkIfPresaleStarted (e : StartedEnv) :
    Keeps (fun s => s.isOwner = true) (checkIfPresaleStarted e) := by
  unfold checkIfPresaleStarted
  refine keeps_tryCatch
    (keeps_bind (keeps_getProviderOrSigner _ _ _) fun _ =>
      keeps_bind (keeps_awaitExternal _ _) fun started => ?_)
    (fun _ => keeps_bind (keeps_consoleWrite _ _) fun _ => keeps_pure _ _)
  cases started
  · exact keeps_bind (keeps_isOwner_getOwner _) fun _ =>
      keeps_bind (keeps_modifySession fun _ h => h) fun _ => keeps_pure _ _
  · exact keeps_bind (keeps_pure _ _) fun _ =>
      keeps_bind (keeps_modifySession fun _ h => h) fun _ => keeps_pure _ _

theorem keeps_isOwner_checkIfPresaleEnded (e : EndedEnv) :
    Keeps (fun s => s.isOwner = true) (checkIfPresaleEnded e) :=
  keeps_tryCatch
    (keeps_bind (keeps_getProviderOrSigner _ _ _) fun _ =>
      keeps_bind (keeps_awaitExternal _ _) fun _ => keeps_modifySession fun _ h => h)
    (fun _ => keeps_consoleWrite _ _)

theorem keeps_isOwner_presaleTick (es : StartedEnv) (ee : EndedEnv) :
    Keeps (fun s => s.isOwner = true) (presaleTick es ee) := by
  unfold presaleTick
  refine keeps_bind (keeps_isOwner_checkIfPresaleStarted _) fun started => ?_
  cases started
  · exact keeps_pure _ _
  · exact keeps_isOwner_checkIfPresaleEnded _

theorem keeps_isOwner_onPageLoad (e : LoadEnv) :
    Keeps (fun s => s.isOwner = true) (onPageLoad e) := by
  unfold onPageLoad
  refine keeps_bind (keeps_isOwner_connectWallet _) fun _ =>
    keeps_bind (keeps_isOwner_getOwner _) fun _ =>
      keeps_bind (keeps_isOwner_checkIfPresaleStarted _) fun started => ?_
  cases started
  · exact keeps_bind (keeps_pure _ _) fun _ => keeps_isOwner_getNumOfMintedToken _
  · exact keeps_bind (keeps_isOwner_checkIfPresaleEnded _) fun _ =>
      keeps_isOwner_getNumOfMintedToken _

theorem operation_keeps_isOwner (op : Operation) (s : Session) (h : s.isOwner = true) :
    (op.run s).isOwner = true := by
  cases op with
  | connectWallet w => exact keeps_isOwner_connectWallet w s h
  | getOwner e => exact keeps_isOwner_getOwner e s h
  | checkIfPresaleStarted e => exact keeps_isOwner_checkIfPresaleStarted e s h
  | checkIfPresaleEnded e => exact keeps_isOwner_checkIfPresaleEnded e s h
  | getNumOfMintedToken e => exact keeps_isOwner_getNumOfMintedToken e s h
  | startPresale e => exact keeps_isOwner_startPresale e s h
  | presaleMint e => exact keeps_isOwner_presaleMint e s h
  | publicMint e => exact keeps_isOwner_publicMint e s h
  | mintedTick e => exact keeps_isOwner_getNumOfMintedToken e s h
  | presaleTick es ee => exact keeps_isOwner_presaleTick es ee s h
  | onPageLoad e => exact keeps_isOwner_onPageLoad e s h

/-- C10: the owner flag is never reset. Once `isOwner` is true it stays true through
any sequence of operations of the mint console (`connectWallet`, `getOwner`,
`checkIfPresaleStarted`, `checkIfPresaleEnded`, `getNumOfMintedToken`, `startPresale`,
`presaleMint`, `publicMint`, the two timer ticks, the initial page load), whatever the
environment answers; and `getOwner` sets the flag to true when its reads succeed and
the signer address equals the contract owner up to letter case, and otherwise leaves
it, like every other field, as it was. -/
theorem isOwner_monotone (ops : List Operation) (s : Session) (e : OwnerEnv) :
    (s.isOwner = true → (runAll ops s).isOwner = true) ∧
    (getOwner e s).ui.isOwner = (s.isOwner || e.ownerMatches) ∧
    (getOwner e s).ui = { s with isOwner := s.isOwner || e.ownerMatches } := by
  refine ⟨?_, by rw [getOwner_ui], getOwner_ui e s⟩
  induction ops generalizing s with
  | nil => exact fun h => h
  | cons op rest ih =>
    intro h
    exact ih (op.run s) (operation_keeps_isOwner op s h)

theorem isOwner_monotone_witness :
    (runAll
      [Operation.getOwner
        { wallet := goerliWallet, owner := some "0xAB", address := some "0xcd" },
       Operation.presaleTick
        { wallet := goerliWallet, presaleStarted := some false,
          owner := { wallet := goerliWallet, owner := some "0xAB", address := some "0xcd" } }
        { wallet := goerliWallet, presaleEnded := some 100, now := 101000 }]
      { initialSession with isOwner := true }).isOwner = true ∧
    (getOwner { wallet := goerliWallet, owner := some "0xAB", address := some "0xab" }
      initialSession).ui.isOwner = true :=
  ⟨(isOwner_monotone _ { initialSession with isOwner := true }
      { wallet := goerliWallet, owner := none, address := none }).1 rfl,
   (isOwner_monotone [] initialSession
      { wallet := goerliWallet, owner := some "0xAB", address := some "0xab" }).2.1.trans
      (by decide)⟩

end MintConsole
